import Mathlib

/-!
Verification of the distributed task-leasing core of `task_coordinator.py`
(class `TaskCoordinator` and its data model).  The Python code is shallowly
embedded: pure helpers become Lean functions, tracker-mutating coroutines
become explicit state passing over a `GHState` record, and the points where
the code awaits the remote tracker are the points where an adversarial
snapshot or an exception oracle is threaded in.  `hashlib.sha256(...)
.hexdigest()[:8]` is kept as an explicit function parameter `hash8`: the
coordinator only ever uses its determinism and the hex shape of its output.
-/

namespace Orchestra

/-- Status of a task in the coordination system (`TaskStatus`). -/
inductive TaskStatus
  | available
  | claimed
  | inProgress
  | blocked
  | review
deriving DecidableEq, Repr

/-- `TaskStatus(value)`: the enum constructor by string value. -/
def TaskStatus.ofValue : String → Option TaskStatus
  | "available" => some .available
  | "claimed" => some .claimed
  | "in-progress" => some .inProgress
  | "blocked" => some .blocked
  | "review" => some .review
  | _ => none

/-- Priority level for tasks (`TaskPriority`). -/
inductive TaskPriority
  | high
  | medium
  | low
deriving DecidableEq, Repr

/-- `TaskPriority(value)`. -/
def TaskPriority.ofValue : String → Option TaskPriority
  | "high" => some .high
  | "medium" => some .medium
  | "low" => some .low
  | _ => none

/-- Estimated size/complexity of tasks (`TaskSize`). -/
inductive TaskSize
  | small
  | medium
  | large
deriving DecidableEq, Repr

/-- `TaskSize(value)`. -/
def TaskSize.ofValue : String → Option TaskSize
  | "small" => some .small
  | "medium" => some .medium
  | "large" => some .large
  | _ => none

/-- Unique identifier for an orchestra agent instance (`AgentIdentity`). -/
structure AgentIdentity where
  agent_id : String
  user : String
  hostname : String
  pid : Nat
  started_at : String
  github_username : String := ""
deriving DecidableEq, Repr

/-- A task from GitHub Issues (`Task`). -/
structure Task where
  issue_number : Nat
  title : String
  description : String
  status : TaskStatus
  priority : Option TaskPriority := none
  size : Option TaskSize := none
  assignee : Option String := none
  labels : List String := []
  created_at : Option String := none
  updated_at : Option String := none
  source_file : Option String := none
  task_id : Option String := none
deriving DecidableEq, Repr

/-- Information about a task claim (`ClaimInfo`). -/
structure ClaimInfo where
  issue_number : Nat
  agent_id : String
  github_username : String
  claimed_at : String
  last_heartbeat : String
  branch_name : Option String := none
  progress_note : Option String := none
deriving DecidableEq, Repr

/-- Result of a claim attempt (`ClaimResult`). -/
structure ClaimResult where
  success : Bool
  issue_number : Option Nat := none
  task : Option Task := none
  branch_name : Option String := none
  reason : Option String := none
  claim_info : Option ClaimInfo := none
deriving DecidableEq, Repr

/-- Result of syncing TODO.md to GitHub Issues (`SyncResult`). -/
structure SyncResult where
  created : Nat := 0
  updated : Nat := 0
  unchanged : Nat := 0
  errors : List String := []
deriving DecidableEq, Repr

/-- One issue record as held by the remote tracker (the JSON fields the
coordinator reads: number, title, body, open/closed state, assignee login,
label names). -/
structure GHIssue where
  number : Nat
  title : String
  body : String
  state : String := "open"
  assignee : Option String := none
  labels : List String := []
deriving DecidableEq, Repr

/-- The remote tracker's state: the issues and, per issue number, the
comments in creation order. -/
structure GHState where
  issues : List GHIssue := []
  comments : List (Nat × String) := []
deriving DecidableEq, Repr

/-- Comments of one issue, in creation order (`get_comments`). -/
def GHState.commentsOf (st : GHState) (n : Nat) : List String :=
  (st.comments.filter (fun p => p.1 = n)).map (fun p => p.2)

/-- The backquote character, written by code point to keep it out of
non-string positions. -/
def backquote : Char := Char.ofNat 96

/-- Python's whitespace class for `str.strip` and the regex `\s`/`\S`
(ASCII part). -/
def isSpaceChar (c : Char) : Bool :=
  c = ' ' || c = '\t' || c = '\n' || c = '\r' || c = Char.ofNat 11 || c = Char.ofNat 12

/-- `str.strip()` on a character list. -/
def pyStripList (l : List Char) : List Char :=
  ((l.dropWhile isSpaceChar).reverse.dropWhile isSpaceChar).reverse

/-- `str.strip()`. -/
def pyStrip (s : String) : String := String.mk (pyStripList s.toList)

/-- Does `l` start with `lit`? -/
def lpre : List Char → List Char → Bool
  | [], _ => true
  | _ :: _, [] => false
  | a :: xs, b :: ys => a = b && lpre xs ys

/-- Maximal run of characters not satisfying `bad`, plus the rest. -/
def takeRun (bad : Char → Bool) : List Char → List Char × List Char
  | [] => ([], [])
  | c :: cs =>
    if bad c then ([], c :: cs)
    else
      let p := takeRun bad cs
      (c :: p.1, p.2)

/-- `re.search` for the patterns used by `_parse_claim_comment` and
`_extract_task_id_from_body`: a literal `lit`, then a nonempty greedy run of
characters outside the class `bad`, then (when `tick` is set) a closing
backquote.  Returns the captured run of the leftmost match.  (Backtracking
inside the greedy run never produces a match these patterns would not
produce at the same position, because a shorter run is followed by a
non-`bad` character where the backquote is required.) -/
def searchPat (lit : List Char) (bad : Char → Bool) (tick : Bool) : List Char → Option (List Char)
  | [] => none
  | c :: cs =>
    if lpre lit (c :: cs) then
      let p := takeRun bad ((c :: cs).drop lit.length)
      if !p.1.isEmpty && (!tick || p.2.head? == some backquote) then some p.1
      else searchPat lit bad tick cs
    else searchPat lit bad tick cs

/-- Is `needle` a contiguous substring (Python `in`)? -/
def hasSub (needle : List Char) : List Char → Bool
  | [] => needle.isEmpty
  | c :: cs => lpre needle (c :: cs) || hasSub needle cs

/-- Python `needle in s`. -/
def strContains (s needle : String) : Bool := hasSub needle.toList s.toList

/-- Python `s.split(sep)` for a one-character separator, empty parts
kept. -/
def splitOnChar (sep : Char) : List Char → List (List Char)
  | [] => [[]]
  | c :: cs =>
    match splitOnChar sep cs with
    | [] => [[c]]
    | p :: ps => if c = sep then [] :: p :: ps else (c :: p) :: ps

/-- `s.split(sep)` returning strings. -/
def strSplitChar (sep : Char) (s : String) : List String :=
  (splitOnChar sep s.toList).map String.mk

/-- Python `s.startswith(p)`. -/
def strStartsWith (s p : String) : Bool := lpre p.toList s.toList

/-- Python `s.lower()` (the headers are ASCII). -/
def strLower (s : String) : String := String.mk (s.toList.map Char.toLower)

/-- Left-to-right, non-overlapping replacement with structural fuel; one
unit of fuel per character consumed. -/
def replaceFuel (pat rep : List Char) : Nat → List Char → List Char
  | 0, l => l
  | _ + 1, [] => []
  | fuel + 1, c :: cs =>
    if lpre pat (c :: cs) && !pat.isEmpty then
      rep ++ replaceFuel pat rep fuel ((c :: cs).drop pat.length)
    else c :: replaceFuel pat rep fuel cs

/-- Python `s.replace(old, new)` for nonempty `old`. -/
def strReplace (s pat rep : String) : String :=
  String.mk (replaceFuel pat.toList rep.toList s.toList.length s.toList)

/-- `TaskCoordinator.CLAIM_COMMENT_MARKER`. -/
def CLAIM_COMMENT_MARKER : String := "<!-- orchestra-claim -->"

/-- `_format_claim_comment`: the lease record comment body. -/
def format_claim_comment (claim_timeout : Nat) (claim : ClaimInfo) : String :=
  let branchDisplay : String :=
    match claim.branch_name with
    | some b => if b = "" then "TBD" else b
    | none => "TBD"
  let progressRow : String :=
    match claim.progress_note with
    | some s => if s = "" then "" else "| Progress | " ++ s ++ " |"
    | none => ""
  CLAIM_COMMENT_MARKER ++ "\n## Task Claimed\n\n| Field | Value |\n|-------|-------|\n| Agent ID | `"
    ++ claim.agent_id ++ "` |\n| GitHub User | @" ++ claim.github_username
    ++ " |\n| Claimed At | " ++ claim.claimed_at ++ " |\n| Branch | `" ++ branchDisplay
    ++ "` |\n| Heartbeat | " ++ claim.last_heartbeat ++ " |\n" ++ progressRow
    ++ "\n\n---\n_This claim will expire if no heartbeat for "
    ++ toString (claim_timeout / 60) ++ " minutes._\n"

/-- Character class `[^`]` of the backquoted captures. -/
def isTickChar (c : Char) : Bool := c = backquote

/-- Character class `[^\n|]` of the bare-cell captures. -/
def isCellStop (c : Char) : Bool := c = '\n' || c = '|'

/-- `_parse_claim_comment`: recover a lease from a comment body.  Succeeds
exactly when the agent-id, username, claimed-at and heartbeat searches all
match; the branch is optional. -/
def parse_claim_comment (body : String) (issue_number : Nat) : Option ClaimInfo :=
  let bs := body.toList
  match searchPat "Agent ID | `".toList isTickChar true bs,
        searchPat "GitHub User | @".toList isSpaceChar false bs,
        searchPat "Claimed At | ".toList isCellStop false bs,
        searchPat "Heartbeat | ".toList isCellStop false bs with
  | some a, some u, some cl, some hb =>
    some { issue_number := issue_number
           agent_id := String.mk (pyStripList a)
           github_username := String.mk (pyStripList u)
           claimed_at := String.mk (pyStripList cl)
           last_heartbeat := String.mk (pyStripList hb)
           branch_name := (searchPat "Branch | `".toList isTickChar true bs).map
             (fun b => String.mk (pyStripList b))
           progress_note := none }
  | _, _, _, _ => none

/-- `_get_claim_info`: scan the comments most-recent-first and parse the
first one containing the claim marker (returning its parse result even when
that is `none`). -/
def get_claim_info (comments : List String) (issue_number : Nat) : Option ClaimInfo :=
  match comments.reverse.find? (fun body => strContains body CLAIM_COMMENT_MARKER) with
  | some body => parse_claim_comment body issue_number
  | none => none

/-- Lowercase hex digit, the class `[a-f0-9]` of the task-id pattern. -/
def isHexLower (c : Char) : Bool :=
  ('0' ≤ c && c ≤ '9') || ('a' ≤ c && c ≤ 'f')

/-- `_extract_task_id_from_body`: first match of
`\*\*Task ID\*\*: `(task-[a-f0-9]+)`` in the body. -/
def extract_task_id_from_body (body : String) : Option String :=
  (searchPat "**Task ID**: `task-".toList (fun c => !isHexLower c) true body.toList).map
    (fun run => "task-" ++ String.mk run)

/-- `list_issues` result against a tracker snapshot: open (or any, for
`state="all"`) issues carrying all the requested labels; the assignee
filter maps the empty string to `"none"`, which selects unassigned items. -/
def list_issues (st : GHState) (labels : List String) (state : String)
    (assignee : Option String) : List GHIssue :=
  st.issues.filter (fun i =>
    (state == "all" || i.state == state) &&
    labels.all (fun l => i.labels.contains l) &&
    (match assignee with
     | none => true
     | some a =>
       let a' := if a = "" then "none" else a
       if a' = "none" then i.assignee.isNone else i.assignee == some a'))

/-- Last valid `status:` label wins (`_issue_to_task` status loop). -/
def statusFromLabels (labels : List String) : TaskStatus :=
  labels.foldl (fun st l =>
    if strStartsWith l "status:" then
      match (strSplitChar ':' l)[1]? with
      | some v => (TaskStatus.ofValue v).getD st
      | none => st
    else st) TaskStatus.available

/-- Last valid `priority:` label wins. -/
def priorityFromLabels (labels : List String) : Option TaskPriority :=
  labels.foldl (fun pr l =>
    if strStartsWith l "priority:" then
      match (strSplitChar ':' l)[1]? with
      | some v => match TaskPriority.ofValue v with
        | some p => some p
        | none => pr
      | none => pr
    else pr) none

/-- Last valid `size:` label wins. -/
def sizeFromLabels (labels : List String) : Option TaskSize :=
  labels.foldl (fun sz l =>
    if strStartsWith l "size:" then
      match (strSplitChar ':' l)[1]? with
      | some v => match TaskSize.ofValue v with
        | some s => some s
        | none => sz
      | none => sz
    else sz) none

/-- `_issue_to_task`: convert a tracker issue to a `Task`. -/
def issue_to_task (issue : GHIssue) : Task :=
  { issue_number := issue.number
    title := issue.title
    description := issue.body
    status := statusFromLabels issue.labels
    priority := priorityFromLabels issue.labels
    size := sizeFromLabels issue.labels
    assignee := issue.assignee
    labels := issue.labels
    created_at := none
    updated_at := none
    task_id := extract_task_id_from_body issue.body }

/-- The sort key of `get_available_tasks`:
`priority_order = {"high": 0, "medium": 1, "low": 2, None: 3}`. -/
def priorityKey (t : Task) : Nat :=
  match t.priority with
  | some .high => 0
  | some .medium => 1
  | some .low => 2
  | none => 3

/-- Stable insertion for the priority sort: an element stops in front of the
first element whose key is not smaller, so equal keys keep their original
relative order — the behavior of Python's stable `list.sort(key=...)`. -/
def sortInsert (t : Task) : List Task → List Task
  | [] => [t]
  | u :: us => if priorityKey t ≤ priorityKey u then t :: u :: us else u :: sortInsert t us

/-- Stable sort by `priorityKey` (Python `tasks.sort(key=...)`). -/
def sortByPriority : List Task → List Task
  | [] => []
  | t :: ts => sortInsert t (sortByPriority ts)

/-- `get_available_tasks`, applied to the issues the tracker returned for
the availability query: convert and sort by priority. -/
def get_available_tasks (issues : List GHIssue) : List Task :=
  sortByPriority (issues.map issue_to_task)

/-- `get_my_claimed_tasks`: open orchestra issues assigned to this agent. -/
def get_my_claimed_tasks (st : GHState) (agent : Option AgentIdentity) : List Task :=
  match agent with
  | none => []
  | some a => (list_issues st ["orchestra-task"] "open" (some a.github_username)).map issue_to_task

/-- The claimed/in-progress listing both `get_all_active_claims` and
`check_stale_claims` fetch (two label queries, concatenated). -/
def active_listing (st : GHState) : List GHIssue :=
  list_issues st ["orchestra-task", "status:claimed"] "open" none ++
  list_issues st ["orchestra-task", "status:in-progress"] "open" none

/-- `get_all_active_claims`: leases recovered from all claimed/in-progress
issues; issues whose lease comment is missing or unparseable are skipped. -/
def get_all_active_claims (st : GHState) : List ClaimInfo :=
  (active_listing st).filterMap
    (fun i => get_claim_info (st.commentsOf i.number) i.number)

/-- A write the coordinator performs against the remote tracker. -/
inductive Effect
  | setAssignee (n : Nat) (login : Option String)
  | removeLabel (n : Nat) (label : String)
  | addLabels (n : Nat) (labels : List String)
  | createComment (n : Nat) (body : String)
  | updateComment (comment_id : Nat) (body : String)
  | setState (n : Nat) (state : String)
deriving DecidableEq, Repr

/-- The agent's private in-memory tables `_claimed_issues` and
`_claim_comment_ids`. -/
structure LocalState where
  claimed_issues : List (Nat × ClaimInfo) := []
  claim_comment_ids : List (Nat × Nat) := []
deriving DecidableEq, Repr

/-- Dictionary lookup. -/
def lookupA {α : Type} (l : List (Nat × α)) (n : Nat) : Option α :=
  (l.find? (fun p => p.1 == n)).map (fun p => p.2)

/-- Dictionary assignment to an existing key. -/
def setA {α : Type} (l : List (Nat × α)) (n : Nat) (v : α) : List (Nat × α) :=
  l.map (fun p => if p.1 = n then (n, v) else p)

/-- Dictionary assignment (`d[n] = v`). -/
def insertA {α : Type} (l : List (Nat × α)) (n : Nat) (v : α) : List (Nat × α) :=
  if (lookupA l n).isSome then setA l n v else l ++ [(n, v)]

/-- Dictionary removal (`d.pop(n, None)`). -/
def removeA {α : Type} (l : List (Nat × α)) (n : Nat) : List (Nat × α) :=
  l.filter (fun p => p.1 != n)

/-- `get_branch_name` / the default branch in `claim_task`. -/
def default_branch_name (agent : AgentIdentity) (issue_number : Nat) : String :=
  agent.user ++ "/task/" ++ toString issue_number

/-- `claim_task`.  `issue1` is the snapshot of the first read, `issue2` the
snapshot of the post-write re-read (another agent may have written in
between); `comment_id` is the id the tracker assigns to the lease comment.
Returns the result, the writes performed against the item, and the new
local tables.  The `.error` case is the uncaught `AttributeError` the code
raises when the re-read shows a JSON-null assignee
(`issue.get("assignee", {}).get("login")` on a present-but-null field). -/
def claim_task (agent : AgentIdentity) (claim_timeout : Nat) (loc : LocalState)
    (issue_number : Nat) (branch_name : Option String)
    (issue1 issue2 : GHIssue) (now : String) (comment_id : Nat) :
    Except String (ClaimResult × List Effect × LocalState) :=
  if issue1.assignee.isSome then
    .ok ({ success := false, issue_number := some issue_number,
           reason := some "already_assigned" }, [], loc)
  else if !issue1.labels.contains "status:available" then
    .ok ({ success := false, issue_number := some issue_number,
           reason := some "not_available" }, [], loc)
  else
    let branch := match branch_name with
      | some b => if b = "" then default_branch_name agent issue_number else b
      | none => default_branch_name agent issue_number
    match issue2.assignee with
    | none => .error "AttributeError"
    | some login =>
      if login ≠ agent.github_username then
        .ok ({ success := false, issue_number := some issue_number,
               reason := some "race_condition" },
             [Effect.setAssignee issue_number (some agent.github_username)], loc)
      else
        let info : ClaimInfo :=
          { issue_number := issue_number, agent_id := agent.agent_id,
            github_username := agent.github_username, claimed_at := now,
            last_heartbeat := now, branch_name := some branch }
        .ok ({ success := true, issue_number := some issue_number,
               task := some (issue_to_task issue2), branch_name := some branch,
               claim_info := some info },
             [Effect.setAssignee issue_number (some agent.github_username),
              Effect.removeLabel issue_number "status:available",
              Effect.addLabels issue_number ["status:claimed"],
              Effect.createComment issue_number (format_claim_comment claim_timeout info)],
             { claimed_issues := insertA loc.claimed_issues issue_number info,
               claim_comment_ids := insertA loc.claim_comment_ids issue_number comment_id })

/-- The attempt loop of `claim_next_available`: try each listed task in
order, return the first success; count one short pause per failed attempt.
`attempt i` is the outcome of the `claim_task` call on the `i`-th task. -/
def claimAttemptLoop (attempt : Nat → ClaimResult) : Nat → List Task → ClaimResult × Nat
  | _, [] => ({ success := false, reason := some "all_tasks_claimed" }, 0)
  | i, _ :: ts =>
    let r := attempt i
    if r.success then (r, 0)
    else
      let p := claimAttemptLoop attempt (i + 1) ts
      (p.1, p.2 + 1)

/-- `claim_next_available` over the listed available tasks, with the pause
count alongside the result. -/
def claim_next_available (tasks : List Task) (attempt : Nat → ClaimResult) :
    ClaimResult × Nat :=
  if tasks.isEmpty then ({ success := false, reason := some "no_tasks_available" }, 0)
  else claimAttemptLoop attempt 0 tasks

/-- `update_progress`: no-op with a warning when the issue is not in the
local lease table; otherwise refresh the heartbeat, optionally the note and
the status label, and rewrite the lease comment in place. -/
def update_progress (claim_timeout : Nat) (loc : LocalState) (issue_number : Nat)
    (status : Option String) (progress_note : Option String) (now : String) :
    LocalState × List Effect :=
  match lookupA loc.claimed_issues issue_number with
  | none => (loc, [])
  | some claim =>
    let claim' : ClaimInfo :=
      { claim with
        last_heartbeat := now,
        progress_note :=
          (match progress_note with
           | some s => if s = "" then claim.progress_note else some s
           | none => claim.progress_note) }
    let labelEffs : List Effect :=
      match status with
      | some s =>
        if s ≠ "" ∧ s ≠ "claimed" then
          [Effect.removeLabel issue_number "status:claimed",
           Effect.addLabels issue_number ["status:" ++ s]]
        else []
      | none => []
    let commentEffs : List Effect :=
      match lookupA loc.claim_comment_ids issue_number with
      | some cid => [Effect.updateComment cid (format_claim_comment claim_timeout claim')]
      | none => []
    ({ loc with claimed_issues := setA loc.claimed_issues issue_number claim' },
     labelEffs ++ commentEffs)

/-- `update_issue(n, assignee=...)` applied to the tracker (empty string
unassigns, i.e. `none` here). -/
def GHState.setAssignee (st : GHState) (n : Nat) (login : Option String) : GHState :=
  { st with issues := st.issues.map (fun i =>
      if i.number = n then { i with assignee := login } else i) }

/-- `remove_label` applied to the tracker (absent label is fine). -/
def GHState.removeLabel (st : GHState) (n : Nat) (label : String) : GHState :=
  { st with issues := st.issues.map (fun i =>
      if i.number = n then { i with labels := i.labels.filter (fun l => l != label) } else i) }

/-- `add_labels` applied to the tracker (labels are a set: no duplicates). -/
def GHState.addLabels (st : GHState) (n : Nat) (newLabels : List String) : GHState :=
  { st with issues := st.issues.map (fun i =>
      if i.number = n then
        { i with labels := i.labels ++ newLabels.filter (fun l => !i.labels.contains l) }
      else i) }

/-- `create_comment` applied to the tracker. -/
def GHState.addComment (st : GHState) (n : Nat) (body : String) : GHState :=
  { st with comments := st.comments ++ [(n, body)] }

/-- `update_issue(n, state=...)` applied to the tracker. -/
def GHState.setIssueState (st : GHState) (n : Nat) (s : String) : GHState :=
  { st with issues := st.issues.map (fun i =>
      if i.number = n then { i with state := s } else i) }

/-- `update_issue(n, title=...)` applied to the tracker. -/
def GHState.setTitle (st : GHState) (n : Nat) (t : String) : GHState :=
  { st with issues := st.issues.map (fun i =>
      if i.number = n then { i with title := t } else i) }

/-- The closing comment body built by `complete_task` (`0`/empty are falsy
in the Python conditionals). -/
def complete_body (agent : Option AgentIdentity) (pr_number : Option Nat)
    (summary : Option String) : String :=
  "## Task Completed\n\n"
    ++ (match pr_number with
        | some p => if p ≠ 0 then "Completed via PR #" ++ toString p ++ ".\n\n" else ""
        | none => "")
    ++ (match summary with
        | some s => if s ≠ "" then "**Summary**: " ++ s ++ "\n\n" else ""
        | none => "")
    ++ (match agent with
        | some a => "_Completed by agent `" ++ a.agent_id ++ "`_"
        | none => "")

/-- `complete_task`: post the closing comment, close the issue, drop the
issue from both local tables. -/
def complete_task (agent : Option AgentIdentity) (loc : LocalState) (st : GHState)
    (issue_number : Nat) (pr_number : Option Nat) (summary : Option String) :
    LocalState × GHState :=
  let st1 := (st.addComment issue_number (complete_body agent pr_number summary)).setIssueState
    issue_number "closed"
  ({ claimed_issues := removeA loc.claimed_issues issue_number,
     claim_comment_ids := removeA loc.claim_comment_ids issue_number }, st1)

/-- `datetime.fromisoformat(s.replace('Z', '+00:00'))`, with the library
parser abstracted to a caller-supplied `parseIso` yielding epoch seconds. -/
def parse_heartbeat (parseIso : String → Option Int) (s : String) : Option Int :=
  parseIso (strReplace s "Z" "+00:00")

/-- `check_stale_claims`: over all claimed/in-progress issues, keep the
recoverable leases whose heartbeat age exceeds `claim_timeout`; issues with
no recoverable lease or an unparseable timestamp are skipped. -/
def check_stale_claims (st : GHState) (parseIso : String → Option Int) (now : Int)
    (claim_timeout : Nat) : List ClaimInfo :=
  (active_listing st).filterMap
    (fun issue =>
      match get_claim_info (st.commentsOf issue.number) issue.number with
      | none => none
      | some ci =>
        match parse_heartbeat parseIso ci.last_heartbeat with
        | none => none
        | some hb => if now - hb > (claim_timeout : Int) then some ci else none)

/-- The audit comment `reclaim_stale_tasks` posts. -/
def stale_comment (claim_timeout : Nat) (claim : ClaimInfo) : String :=
  "## Stale Claim Released\n\nAgent `" ++ claim.agent_id
    ++ "` stopped responding.\n\n**Last heartbeat**: " ++ claim.last_heartbeat
    ++ "\n**Timeout**: " ++ toString (claim_timeout / 60)
    ++ " minutes\n\n_Task is now available for claiming._"

/-- The per-lease release sequence of `reclaim_stale_tasks`. -/
def reclaim_step (claim_timeout : Nat) (st : GHState) (claim : ClaimInfo) : GHState :=
  let n := claim.issue_number
  (((((st.setAssignee n none).removeLabel n "status:claimed").removeLabel
      n "status:in-progress").addLabels n ["status:available"]).addComment
      n (stale_comment claim_timeout claim))

/-- `reclaim_stale_tasks`: release every stale claim and count them. -/
def reclaim_stale_tasks (st : GHState) (parseIso : String → Option Int) (now : Int)
    (claim_timeout : Nat) : Nat × GHState :=
  (check_stale_claims st parseIso now claim_timeout).foldl
    (fun acc claim => (acc.1 + 1, reclaim_step claim_timeout acc.2 claim)) (0, st)

/-- What `reclaim_stale_tasks` owes each reclaimed lease in the final
tracker state: the item unassigned, carrying `status:available`, out of
`status:claimed`/`status:in-progress`, with the audit comment (naming the
abandoning agent and its last heartbeat) posted on it. -/
def reclaimedState (claim_timeout : Nat) (ci : ClaimInfo) (st : GHState) : Prop :=
  (∀ i ∈ st.issues, i.number = ci.issue_number →
    i.assignee = none ∧ "status:available" ∈ i.labels ∧
    "status:claimed" ∉ i.labels ∧ "status:in-progress" ∉ i.labels) ∧
  stale_comment claim_timeout ci ∈ st.commentsOf ci.issue_number

/-- One task parsed out of a TODO file:
`(title, body, task_id, source_file, priority)`. -/
structure ParsedTask where
  title : String
  body : String
  task_id : String
  source_file : String
  priority : String
deriving DecidableEq, Repr

/-- The priority-section header rules of `_parse_todo_file` (applied to a
line starting with `#`). -/
def priorityOfHeader (current : String) (line : String) : String :=
  let low := strLower line
  if strContains low "highest" && strContains low "priority" then "highest"
  else if strContains low "high" && strContains low "priority" then "high"
  else if strContains low "medium" && strContains low "priority" then "medium"
  else if strContains low "low" && strContains low "priority" then "low"
  else if strContains low "completed" || strContains low "done" then "skip"
  else if strContains low "detailed" || strContains low "documentation" then "skip"
  else current

/-- The body-walk stop condition `re.match(r'^- \[[ x]\]', line)`. -/
def isTaskStart (line : String) : Bool :=
  strStartsWith line "- [ ]" || strStartsWith line "- [x]"

/-- Sub-item lines following a task, until the next task or header, with
blank lines dropped (kept raw otherwise). -/
def collect_body (lines : List String) : List String :=
  (lines.takeWhile (fun l => !(isTaskStart l || strStartsWith l "#"))).filter
    (fun l => pyStrip l != "")

/-- The line-scanning loop of `_parse_todo_file`.  A task line is
`re.match(r'^- \[ \] (.+)$', line)`: the fixed prefix plus at least one
character.  `hash8` stands for `hashlib.sha256(title.encode()).hexdigest()[:8]`. -/
def parseTodoLoop (hash8 : String → String) (src : String) :
    String → List String → List ParsedTask
  | _, [] => []
  | pr, line :: rest =>
    if strStartsWith line "#" then parseTodoLoop hash8 src (priorityOfHeader pr line) rest
    else if pr = "skip" then parseTodoLoop hash8 src pr rest
    else if strStartsWith line "- [ ] " ∧ 6 < line.length then
      let title := pyStrip (line.drop 6)
      let body := pyStrip (String.intercalate "\n" (collect_body rest))
      { title := title, body := body, task_id := "task-" ++ hash8 title,
        source_file := src, priority := pr } :: parseTodoLoop hash8 src pr rest
    else parseTodoLoop hash8 src pr rest

/-- `_parse_todo_file` on the text of one file. -/
def parse_todo_file (hash8 : String → String) (src : String) (content : String) :
    List ParsedTask :=
  parseTodoLoop hash8 src "medium" (strSplitChar '\n' content)

/-- `_format_issue_body`. -/
def format_issue_body (description task_id source_file : String) : String :=
  "## Description\n\n"
    ++ (if description = "" then "_No additional description._" else description)
    ++ "\n\n---\n\n## Metadata\n\n- **Source**: `" ++ source_file
    ++ "`\n- **Task ID**: `" ++ task_id
    ++ "`\n\n_This issue was created by Claude Orchestra task sync._"

/-- `f"Error syncing task '{task_title}': {e}"`. -/
def sync_error_msg (title err : String) : String :=
  "Error syncing task '" ++ title ++ "': " ++ err

/-- The map from embedded task id to existing issue (later issues
overwrite, as in the Python dict comprehension loop). -/
def build_task_map (issues : List GHIssue) : List (String × GHIssue) :=
  issues.foldl (fun m i =>
    match extract_task_id_from_body i.body with
    | some tid => (tid, i) :: m
    | none => m) []

/-- Lookup in the task map (front of the list is the latest binding). -/
def map_lookup (m : List (String × GHIssue)) (tid : String) : Option GHIssue :=
  (m.find? (fun p => p.1 == tid)).map (fun p => p.2)

/-- The issue `create_issue` makes for a new task. -/
def new_issue_for (t : ParsedTask) (num : Nat) : GHIssue :=
  { number := num, title := t.title,
    body := format_issue_body t.body t.task_id t.source_file,
    state := "open", assignee := none,
    labels := ["orchestra-task", "status:available", "priority:" ++ t.priority] }

/-- Accumulated state of the sync loop: the counters, the tracker issue
list, and the number the tracker will assign to the next created issue. -/
structure SyncState where
  result : SyncResult := {}
  issues : List GHIssue
  next_number : Nat
deriving DecidableEq, Repr

/-- One iteration of the sync loop on task `t`.  `oracle idx` injects the
exception (if any) that the tracker call of iteration `idx` raises; the
except-clause appends the message and moves on. -/
def sync_step (tmap : List (String × GHIssue)) (oracle : Nat → Option String)
    (idx : Nat) (t : ParsedTask) (st : SyncState) : SyncState :=
  match map_lookup tmap t.task_id with
  | some existing =>
    if existing.title ≠ t.title then
      match oracle idx with
      | some e =>
        { st with result := { st.result with
            errors := st.result.errors ++ [sync_error_msg t.title e] } }
      | none =>
        { st with
          result := { st.result with updated := st.result.updated + 1 },
          issues := st.issues.map (fun i =>
            if i.number = existing.number then { i with title := t.title } else i) }
    else { st with result := { st.result with unchanged := st.result.unchanged + 1 } }
  | none =>
    match oracle idx with
    | some e =>
      { st with result := { st.result with
          errors := st.result.errors ++ [sync_error_msg t.title e] } }
    | none =>
      { st with
        result := { st.result with created := st.result.created + 1 },
        issues := st.issues ++ [new_issue_for t st.next_number],
        next_number := st.next_number + 1 }

/-- The per-task loop of `sync_todos_to_issues`.  The dedup map is built
once, before the loop, and not updated inside it. -/
def sync_loop (tmap : List (String × GHIssue)) (oracle : Nat → Option String) :
    Nat → List ParsedTask → SyncState → SyncState
  | _, [], st => st
  | idx, t :: ts, st => sync_loop tmap oracle (idx + 1) ts (sync_step tmap oracle idx t st)

/-- `sync_todos_to_issues` on parsed tasks against the orchestra issues the
tracker returns (all states, all pages).  Returns the `SyncResult` and the
tracker's issue list afterwards.  With no tasks the code returns before
touching the tracker. -/
def sync_todos_to_issues (tasks : List ParsedTask) (existing : List GHIssue)
    (oracle : Nat → Option String) (next_number : Nat) : SyncResult × List GHIssue :=
  if tasks.isEmpty then ({}, existing)
  else
    let st := sync_loop (build_task_map existing) oracle 0 tasks
      { issues := existing, next_number := next_number }
    (st.result, st.issues)

/-- The oracle of a run in which no tracker call raises. -/
def noRaise : Nat → Option String := fun _ => none

/-- A concrete agent identity used by the witness statements. -/
def sampleAgent : AgentIdentity :=
  { agent_id := "alice_host_20240101_ab12", user := "alice", hostname := "host",
    pid := 42, started_at := "2024-01-01T00:00:00+00:00", github_username := "alice" }

/-- A concrete lease used by the witness statements. -/
def sampleClaim : ClaimInfo :=
  { issue_number := 7, agent_id := "alice_host_20240101_ab12",
    github_username := "alice", claimed_at := "2024-01-01T00:00:00+00:00",
    last_heartbeat := "2024-01-01T00:05:00+00:00",
    branch_name := some "alice/task/7", progress_note := none }

/-- A lease whose remote username is the empty string. -/
def emptyUserClaim : ClaimInfo := { sampleClaim with github_username := "" }

/-- A concrete stand-in for the title hash (the code relies only on the
hash being a deterministic function with lowercase-hex output). -/
def zeroHash : String → String := fun _ => "00000000"

/-- A backlog whose task description spoofs the Task ID metadata line. -/
def spoofContent : String :=
  "- [ ] Alpha\n  **Task ID**: `task-0000000000000000`"

/-- A concrete issue carrying an assignee. -/
def assignedIssue : GHIssue :=
  { number := 5, title := "T", body := "", assignee := some "bob",
    labels := ["orchestra-task", "status:available"] }

/-- A concrete unassigned available issue. -/
def availableIssue : GHIssue :=
  { number := 5, title := "T", body := "", assignee := none,
    labels := ["orchestra-task", "status:available"] }

/-- Local tables holding the sample lease. -/
def sampleLocal : LocalState :=
  { claimed_issues := [(7, sampleClaim)], claim_comment_ids := [(7, 99)] }

/-- A tracker snapshot with one claimed issue carrying the sample lease
comment. -/
def staleState : GHState :=
  { issues := [{ number := 7, title := "T", body := "", assignee := some "alice",
                 labels := ["orchestra-task", "status:claimed"] }],
    comments := [(7, format_claim_comment 1800 sampleClaim)] }

/-- An ISO-parse stub for the witness statements: it knows the sample
lease's heartbeat instant. -/
def sampleParseIso : String → Option Int :=
  fun s => if s = "2024-01-01T00:05:00+00:00" then some 0 else none

/-- A concrete task used by witness statements. -/
def sampleTask : Task :=
  { issue_number := 5, title := "T", description := "", status := .available }

/-- A concrete failed claim attempt used by witness statements. -/
def lostRace : ClaimResult := { success := false, reason := some "race_condition" }

/-! ## Helper lemmas on the dictionary embedding -/

theorem lookupA_setA {α : Type} (l : List (Nat × α)) (n : Nat) (v : α)
    (h : (lookupA l n).isSome = true) : lookupA (setA l n v) n = some v := by
  induction l with
  | nil => simp [lookupA] at h
  | cons p l ih =>
    rcases p with ⟨m, a⟩
    by_cases hp : m = n
    · subst hp
      simp [lookupA, setA, List.find?]
    · have hbeq : (m == n) = false := by simpa using hp
      have h' : (lookupA l n).isSome = true := by
        simpa [lookupA, List.find?, hbeq] using h
      simpa [lookupA, setA, List.find?, hbeq, hp] using ih h'

theorem lookupA_removeA {α : Type} (l : List (Nat × α)) (n : Nat) :
    lookupA (removeA l n) n = none := by
  induction l with
  | nil => simp [lookupA, removeA]
  | cons p l ih =>
    by_cases hp : p.1 = n
    · simpa [removeA, List.filter, hp] using ih
    · have hne : (p.1 != n) = true := by simpa using hp
      have hfind : (p.1 == n) = false := by simpa using hp
      simp [removeA, List.filter, hne, lookupA, List.find?, hfind, ih]

/-! ## C1: the failure branches of `claim_task` -/

/-- C1: `claim_task` fails with `already_assigned` when the first read
shows an assignee (no writes at all), with `not_available` when the first
read lacks the `status:available` label (no writes), and with
`race_condition` when the post-write re-read shows an assignee other than
this agent — in which case the only write ever issued is the optimistic
assignee write, so the item is left to whoever won the race. -/
theorem claim_task_first_read_and_race
    (agent : AgentIdentity) (timeout : Nat) (loc : LocalState) (n : Nat)
    (br : Option String) (issue1 issue2 : GHIssue) (now : String) (cid : Nat) :
    (issue1.assignee.isSome = true →
      claim_task agent timeout loc n br issue1 issue2 now cid =
        .ok ({ success := false, issue_number := some n,
               reason := some "already_assigned" }, [], loc)) ∧
    (issue1.assignee = none → "status:available" ∉ issue1.labels →
      claim_task agent timeout loc n br issue1 issue2 now cid =
        .ok ({ success := false, issue_number := some n,
               reason := some "not_available" }, [], loc)) ∧
    (∀ other, issue1.assignee = none →
      "status:available" ∈ issue1.labels →
      issue2.assignee = some other → other ≠ agent.github_username →
      claim_task agent timeout loc n br issue1 issue2 now cid =
        .ok ({ success := false, issue_number := some n,
               reason := some "race_condition" },
          [Effect.setAssignee n (some agent.github_username)], loc)) := by
  refine ⟨fun h1 => ?_, fun h1 h2 => ?_, fun other h1 h2 h3 h4 => ?_⟩
  · simp [claim_task, h1]
  · simp [claim_task, h1, h2]
  · simp [claim_task, h1, h2, h3, h4]

/-- Witness for C1 at concrete inputs: a first read showing assignee
`bob` yields the `already_assigned` failure with no writes. -/
theorem claim_task_first_read_and_race_witness :
    claim_task sampleAgent 1800 {} 5 none assignedIssue assignedIssue "t" 1 =
      .ok ({ success := false, issue_number := some 5,
             reason := some "already_assigned" }, [], {}) :=
  (claim_task_first_read_and_race sampleAgent 1800 {} 5 none assignedIssue
    assignedIssue "t" 1).1 (by decide)

/-! ## C5: `update_progress` -/

/-- C5: for an issue absent from the local lease table `update_progress`
is a pure no-op — identical local state and no tracker effect; for a
present issue it sets the lease's `last_heartbeat` to the current time, so
with a non-decreasing clock the heartbeat never decreases. -/
theorem update_progress_heartbeat
    (timeout : Nat) (loc : LocalState) (n : Nat)
    (status note : Option String) (now : String) :
    (lookupA loc.claimed_issues n = none →
      update_progress timeout loc n status note now = (loc, [])) ∧
    (∀ ci, lookupA loc.claimed_issues n = some ci →
      ∃ ci', lookupA (update_progress timeout loc n status note now).1.claimed_issues n
          = some ci' ∧
        ci'.last_heartbeat = now ∧
        (ci.last_heartbeat ≤ now → ci.last_heartbeat ≤ ci'.last_heartbeat)) := by
  constructor
  · intro h
    simp [update_progress, h]
  · intro ci h
    simp only [update_progress, h]
    exact ⟨_, lookupA_setA _ _ _ (by simp [h]), rfl, fun hle => hle⟩

/-- Witness for C5: issue 3 is not in the sample table, so the call is a
no-op; issue 7 is, and its heartbeat becomes the supplied time. -/
theorem update_progress_heartbeat_witness :
    update_progress 1800 sampleLocal 3 none none "2024-01-01T01:00:00+00:00"
        = (sampleLocal, []) ∧
    ∃ ci', lookupA (update_progress 1800 sampleLocal 7 none none
          "2024-01-01T01:00:00+00:00").1.claimed_issues 7 = some ci' ∧
        ci'.last_heartbeat = "2024-01-01T01:00:00+00:00" := by
  constructor
  · exact (update_progress_heartbeat 1800 sampleLocal 3 none none
      "2024-01-01T01:00:00+00:00").1 (by decide)
  · obtain ⟨ci', h1, h2, _⟩ := (update_progress_heartbeat 1800 sampleLocal 7 none none
      "2024-01-01T01:00:00+00:00").2 sampleClaim (by decide)
    exact ⟨ci', h1, h2⟩

/-! ## C9: `complete_task` -/

theorem complete_task_state_closed
    (agent : Option AgentIdentity) (loc : LocalState) (st : GHState)
    (n : Nat) (pr : Option Nat) (summary : Option String) :
    ∀ i ∈ (complete_task agent loc st n pr summary).2.issues,
      i.number = n → i.state = "closed" := by
  intro i hi hnum
  simp only [complete_task, GHState.setIssueState, GHState.addComment,
    List.mem_map] at hi
  obtain ⟨j, _, hj⟩ := hi
  by_cases hjn : j.number = n
  · simp [hjn] at hj
    rw [← hj]
  · simp [hjn] at hj
    rw [← hj] at hnum
    exact absurd hnum hjn

/-- C9: `complete_task` appends the closing comment to the item, closes
every issue bearing that number, removes the number from both local
tables, makes the item disappear from the agent's claimed-task listing,
and turns any later `update_progress` (hence any heartbeat) for it into a
no-op. -/
theorem complete_task_closes
    (agent : AgentIdentity) (loc : LocalState) (st : GHState)
    (n : Nat) (pr : Option Nat) (summary : Option String) :
    ((complete_task (some agent) loc st n pr summary).2.commentsOf n =
        st.commentsOf n ++ [complete_body (some agent) pr summary]) ∧
    (∀ i ∈ (complete_task (some agent) loc st n pr summary).2.issues,
        i.number = n → i.state = "closed") ∧
    lookupA (complete_task (some agent) loc st n pr summary).1.claimed_issues n = none ∧
    lookupA (complete_task (some agent) loc st n pr summary).1.claim_comment_ids n = none ∧
    (∀ t ∈ get_my_claimed_tasks (complete_task (some agent) loc st n pr summary).2
        (some agent), t.issue_number ≠ n) ∧
    (∀ timeout status note now,
      update_progress timeout (complete_task (some agent) loc st n pr summary).1
          n status note now
        = ((complete_task (some agent) loc st n pr summary).1, [])) := by
  refine ⟨?_, complete_task_state_closed _ loc st n pr summary, ?_, ?_, ?_, ?_⟩
  · simp [complete_task, GHState.addComment, GHState.setIssueState, GHState.commentsOf,
      List.filter_append]
  · exact lookupA_removeA _ _
  · exact lookupA_removeA _ _
  · intro t ht hteq
    simp only [get_my_claimed_tasks, list_issues, List.mem_map, List.mem_filter] at ht
    obtain ⟨i, ⟨hi, hcond⟩, hit⟩ := ht
    have hnum : i.number = n := by
      have : t.issue_number = i.number := by rw [← hit]; rfl
      omega
    have hclosed : i.state = "closed" :=
      complete_task_state_closed (some agent) loc st n pr summary i hi hnum
    simp [hclosed] at hcond
  · intro timeout status note now
    exact (update_progress_heartbeat timeout _ n status note now).1 (lookupA_removeA _ _)

/-- Witness for C9 at concrete inputs: after completing issue 7, the lease
table no longer holds it and the agent's claimed-task listing is free of
it. -/
theorem complete_task_closes_witness :
    lookupA (complete_task (some sampleAgent) sampleLocal staleState 7 none
        none).1.claimed_issues 7 = none ∧
    ∀ t ∈ get_my_claimed_tasks (complete_task (some sampleAgent) sampleLocal
        staleState 7 none none).2 (some sampleAgent), t.issue_number ≠ 7 := by
  obtain ⟨_, _, h3, _, h5, _⟩ := complete_task_closes sampleAgent sampleLocal
    staleState 7 none none
  exact ⟨h3, h5⟩

/-! ## C6: `claim_next_available` -/

theorem claimAttemptLoop_cases (attempt : Nat → ClaimResult) (ts : List Task) :
    ∀ k : Nat,
      (∃ j, j < ts.length ∧ (attempt (k + j)).success = true ∧
        claimAttemptLoop attempt k ts = (attempt (k + j), j) ∧
        ∀ j', j' < j → (attempt (k + j')).success = false) ∨
      ((∀ j, j < ts.length → (attempt (k + j)).success = false) ∧
        claimAttemptLoop attempt k ts =
          ({ success := false, reason := some "all_tasks_claimed" }, ts.length)) := by
  induction ts with
  | nil =>
    intro k
    exact .inr ⟨fun j hj => absurd hj (Nat.not_lt_zero j), rfl⟩
  | cons t ts ih =>
    intro k
    by_cases h : (attempt k).success = true
    · left
      exact ⟨0, Nat.succ_pos _, h, by simp [claimAttemptLoop, h],
        fun j' hj' => absurd hj' (Nat.not_lt_zero j')⟩
    · have h' : (attempt k).success = false := by
        revert h; cases (attempt k).success <;> simp
      have hloop : claimAttemptLoop attempt k (t :: ts) =
          ((claimAttemptLoop attempt (k + 1) ts).1,
           (claimAttemptLoop attempt (k + 1) ts).2 + 1) := by
        simp [claimAttemptLoop, h']
      rcases ih (k + 1) with ⟨j, hj, hs, heq, hall⟩ | ⟨hall, heq⟩
      · left
        refine ⟨j + 1, Nat.succ_lt_succ hj, ?_, ?_, ?_⟩
        · rw [show k + (j + 1) = (k + 1) + j by omega]; exact hs
        · rw [hloop, heq, show k + (j + 1) = (k + 1) + j by omega]
        · intro j' hj'
          cases j' with
          | zero => exact h'
          | succ m =>
            rw [show k + (m + 1) = (k + 1) + m by omega]
            exact hall m (by simpa using hj')
      · right
        constructor
        · intro j hj
          cases j with
          | zero => exact h'
          | succ m =>
            rw [show k + (m + 1) = (k + 1) + m by omega]
            exact hall m (by simp at hj; omega)
        · rw [hloop, heq]
          simp

/-- C6: with an empty availability listing `claim_next_available` returns
the `no_tasks_available` failure; otherwise it tries each task in order and
returns the outcome of the first successful attempt (all earlier attempts
having failed, one pause per failure); it returns the `all_tasks_claimed`
failure exactly when every attempt failed — every outcome is a returned
`ClaimResult` value, never an exception. -/
theorem claim_next_available_cases (tasks : List Task) (attempt : Nat → ClaimResult) :
    (tasks = [] → claim_next_available tasks attempt =
      ({ success := false, reason := some "no_tasks_available" }, 0)) ∧
    (tasks ≠ [] →
      ((∃ i, i < tasks.length ∧ (attempt i).success = true ∧
          claim_next_available tasks attempt = (attempt i, i) ∧
          ∀ j, j < i → (attempt j).success = false) ∨
        ((∀ i, i < tasks.length → (attempt i).success = false) ∧
          claim_next_available tasks attempt =
            ({ success := false, reason := some "all_tasks_claimed" }, tasks.length)))) ∧
    (tasks ≠ [] →
      ((((claim_next_available tasks attempt).1.success = false) ∧
        (claim_next_available tasks attempt).1.reason = some "all_tasks_claimed") ↔
        (∀ i, i < tasks.length → (attempt i).success = false))) := by
  have hmain : tasks ≠ [] →
      ((∃ i, i < tasks.length ∧ (attempt i).success = true ∧
          claim_next_available tasks attempt = (attempt i, i) ∧
          ∀ j, j < i → (attempt j).success = false) ∨
        ((∀ i, i < tasks.length → (attempt i).success = false) ∧
          claim_next_available tasks attempt =
            ({ success := false, reason := some "all_tasks_claimed" }, tasks.length))) := by
    intro h
    have hne : tasks.isEmpty = false := by
      cases tasks with
      | nil => exact absurd rfl h
      | cons t ts => rfl
    have hdef : claim_next_available tasks attempt = claimAttemptLoop attempt 0 tasks := by
      simp [claim_next_available, hne]
    rcases claimAttemptLoop_cases attempt tasks 0 with ⟨j, hj, hs, heq, hall⟩ | ⟨hall, heq⟩
    · left
      refine ⟨j, hj, by simpa using hs, ?_, fun j' hj' => by simpa using hall j' hj'⟩
      rw [hdef, heq]
      simp
    · right
      exact ⟨fun i hi => by simpa using hall i hi, by rw [hdef, heq]⟩
  refine ⟨?_, hmain, ?_⟩
  · intro h
    subst h
    rfl
  · intro h
    constructor
    · intro ⟨hfail, _⟩
      rcases hmain h with ⟨i, _, hs, heq, _⟩ | ⟨hall, _⟩
      · rw [heq] at hfail
        rw [hs] at hfail
        exact absurd hfail (by simp)
      · exact hall
    · intro hall
      rcases hmain h with ⟨i, hi, hs, _, _⟩ | ⟨_, heq⟩
      · exact absurd hs (by simp [hall i hi])
      · rw [heq]
        exact ⟨rfl, rfl⟩

/-- Witness for C6: no available tasks yields `no_tasks_available`; a
single task whose attempt fails yields `all_tasks_claimed`. -/
theorem claim_next_available_cases_witness :
    claim_next_available [] (fun _ => lostRace) =
      ({ success := false, reason := some "no_tasks_available" }, 0) ∧
    (claim_next_available [sampleTask] (fun _ => lostRace)).1.reason =
      some "all_tasks_claimed" := by
  constructor
  · exact (claim_next_available_cases [] (fun _ => lostRace)).1 rfl
  · have h := ((claim_next_available_cases [sampleTask]
      (fun _ => lostRace)).2.2 (by simp)).2 (fun i _ => rfl)
    exact h.2

/-! ## C4: the priority sort of `get_available_tasks` -/

theorem mem_sortInsert (t x : Task) (l : List Task) :
    x ∈ sortInsert t l ↔ x = t ∨ x ∈ l := by
  induction l with
  | nil => simp [sortInsert]
  | cons u us ih =>
    by_cases h : priorityKey t ≤ priorityKey u
    · simp [sortInsert, h]
    · simp [sortInsert, h, ih]
      tauto

theorem pairwise_sortInsert (t : Task) (l : List Task)
    (h : List.Pairwise (fun a b => priorityKey a ≤ priorityKey b) l) :
    List.Pairwise (fun a b => priorityKey a ≤ priorityKey b) (sortInsert t l) := by
  induction l with
  | nil => simp [sortInsert]
  | cons u us ih =>
    rw [List.pairwise_cons] at h
    by_cases hc : priorityKey t ≤ priorityKey u
    · rw [sortInsert, if_pos hc, List.pairwise_cons]
      refine ⟨?_, List.pairwise_cons.2 h⟩
      intro x hx
      rcases List.mem_cons.1 hx with hxu | hxus
      · subst hxu; exact hc
      · exact le_trans hc (h.1 x hxus)
    · rw [sortInsert, if_neg hc, List.pairwise_cons]
      refine ⟨?_, ih h.2⟩
      intro x hx
      rcases (mem_sortInsert t x us).1 hx with hxt | hxus
      · subst hxt; omega
      · exact h.1 x hxus

theorem filter_sortInsert (k : Nat) (t : Task) (l : List Task) :
    (sortInsert t l).filter (fun x => priorityKey x == k) =
      (if priorityKey t = k then [t] else []) ++
        l.filter (fun x => priorityKey x == k) := by
  induction l with
  | nil =>
    by_cases h : priorityKey t = k <;> simp [sortInsert, h]
  | cons u us ih =>
    by_cases hc : priorityKey t ≤ priorityKey u
    · rw [sortInsert, if_pos hc]
      by_cases h : priorityKey t = k <;> simp [List.filter_cons, h]
    · rw [sortInsert, if_neg hc]
      rw [List.filter_cons, List.filter_cons]
      by_cases hu : priorityKey u = k
      · have hbu : (priorityKey u == k) = true := by simpa using hu
        have ht : priorityKey t ≠ k := by omega
        simp [hbu, ih, ht]
      · have hbu : (priorityKey u == k) = false := by simpa using hu
        simp [hbu, ih]

theorem filter_sortByPriority (k : Nat) (l : List Task) :
    (sortByPriority l).filter (fun x => priorityKey x == k) =
      l.filter (fun x => priorityKey x == k) := by
  induction l with
  | nil => rfl
  | cons t ts ih =>
    rw [sortByPriority, filter_sortInsert, ih, List.filter_cons]
    by_cases h : priorityKey t = k
    · have hb : (priorityKey t == k) = true := by simpa using h
      simp [h, hb]
    · have hb : (priorityKey t == k) = false := by simpa using h
      simp [h, hb]

theorem pairwise_sortByPriority (l : List Task) :
    List.Pairwise (fun a b => priorityKey a ≤ priorityKey b) (sortByPriority l) := by
  induction l with
  | nil => simp [sortByPriority]
  | cons t ts ih => exact pairwise_sortInsert t _ ih

/-- C4: `get_available_tasks` returns the converted tasks ordered by
non-decreasing priority key (HIGH=0 before MEDIUM=1 before LOW=2 before
unprioritized=3), and within each priority band it preserves the tracker's
original order: filtering the output to any one key equals filtering the
unsorted conversion — the stability of Python's `list.sort`. -/
theorem get_available_tasks_priority_sorted (issues : List GHIssue) :
    List.Pairwise (fun a b => priorityKey a ≤ priorityKey b)
      (get_available_tasks issues) ∧
    ∀ k, (get_available_tasks issues).filter (fun t => priorityKey t == k) =
      (issues.map issue_to_task).filter (fun t => priorityKey t == k) :=
  ⟨pairwise_sortByPriority _, fun k => filter_sortByPriority k _⟩

/-! ## C7: partial-failure semantics of the sync loop -/

theorem sync_step_sum (tmap : List (String × GHIssue)) (oracle : Nat → Option String)
    (idx : Nat) (t : ParsedTask) (st : SyncState) :
    (sync_step tmap oracle idx t st).result.created +
      (sync_step tmap oracle idx t st).result.updated +
      (sync_step tmap oracle idx t st).result.unchanged +
      (sync_step tmap oracle idx t st).result.errors.length =
    st.result.created + st.result.updated + st.result.unchanged +
      st.result.errors.length + 1 := by
  cases hlk : map_lookup tmap t.task_id with
  | none =>
    cases hor : oracle idx with
    | none => simp [sync_step, hlk, hor]; omega
    | some e => simp [sync_step, hlk, hor]; omega
  | some ex =>
    by_cases ht : ex.title ≠ t.title
    · cases hor : oracle idx with
      | none => simp [sync_step, hlk, hor, ht]; omega
      | some e => simp [sync_step, hlk, hor, ht]; omega
    · simp [sync_step, hlk, ht]
      omega

theorem sync_step_errors_mono (tmap : List (String × GHIssue))
    (oracle : Nat → Option String) (idx : Nat) (t : ParsedTask) (st : SyncState)
    (m : String) (hm : m ∈ st.result.errors) :
    m ∈ (sync_step tmap oracle idx t st).result.errors := by
  cases hlk : map_lookup tmap t.task_id with
  | none =>
    cases hor : oracle idx with
    | none => simpa [sync_step, hlk, hor] using hm
    | some e => simp [sync_step, hlk, hor, hm]
  | some ex =>
    by_cases ht : ex.title ≠ t.title
    · cases hor : oracle idx with
      | none => simpa [sync_step, hlk, hor, ht] using hm
      | some e => simp [sync_step, hlk, hor, ht, hm]
    · simpa [sync_step, hlk, ht] using hm

theorem sync_step_error_mem (tmap : List (String × GHIssue))
    (oracle : Nat → Option String) (idx : Nat) (t : ParsedTask) (st : SyncState)
    (e : String) (hor : oracle idx = some e)
    (hcall : match map_lookup tmap t.task_id with
             | some ex => ex.title ≠ t.title
             | none => True) :
    sync_error_msg t.title e ∈ (sync_step tmap oracle idx t st).result.errors := by
  cases hlk : map_lookup tmap t.task_id with
  | none => simp [sync_step, hlk, hor]
  | some ex =>
    rw [hlk] at hcall
    simp [sync_step, hlk, hor, hcall]

theorem sync_loop_sum (tmap : List (String × GHIssue)) (oracle : Nat → Option String) :
    ∀ (ts : List ParsedTask) (idx : Nat) (st : SyncState),
      (sync_loop tmap oracle idx ts st).result.created +
        (sync_loop tmap oracle idx ts st).result.updated +
        (sync_loop tmap oracle idx ts st).result.unchanged +
        (sync_loop tmap oracle idx ts st).result.errors.length =
      st.result.created + st.result.updated + st.result.unchanged +
        st.result.errors.length + ts.length := by
  intro ts
  induction ts with
  | nil => intro idx st; simp [sync_loop]
  | cons t ts ih =>
    intro idx st
    rw [sync_loop, ih, sync_step_sum]
    simp
    omega

theorem sync_loop_errors_mono (tmap : List (String × GHIssue))
    (oracle : Nat → Option String) :
    ∀ (ts : List ParsedTask) (idx : Nat) (st : SyncState) (m : String),
      m ∈ st.result.errors → m ∈ (sync_loop tmap oracle idx ts st).result.errors := by
  intro ts
  induction ts with
  | nil => intro idx st m hm; simpa [sync_loop] using hm
  | cons t ts ih =>
    intro idx st m hm
    rw [sync_loop]
    exact ih _ _ _ (sync_step_errors_mono _ _ _ _ _ _ hm)

theorem sync_loop_error_mem (tmap : List (String × GHIssue))
    (oracle : Nat → Option String) :
    ∀ (ts : List ParsedTask) (idx : Nat) (st : SyncState) (i : Nat) (t : ParsedTask)
      (e : String), ts[i]? = some t → oracle (idx + i) = some e →
      (match map_lookup tmap t.task_id with
       | some ex => ex.title ≠ t.title
       | none => True) →
      sync_error_msg t.title e ∈ (sync_loop tmap oracle idx ts st).result.errors := by
  intro ts
  induction ts with
  | nil => intro idx st i t e hget; simp at hget
  | cons u ts ih =>
    intro idx st i t e hget hor hcall
    cases i with
    | zero =>
      simp at hget
      subst hget
      rw [show idx + 0 = idx by omega] at hor
      rw [sync_loop]
      exact sync_loop_errors_mono tmap oracle ts _ _ _
        (sync_step_error_mem tmap oracle idx u st e hor hcall)
    | succ m =>
      simp only [List.getElem?_cons_succ] at hget
      rw [show idx + (m + 1) = (idx + 1) + m by omega] at hor
      rw [sync_loop]
      exact ih (idx + 1) _ m t e hget hor hcall

/-- C7: a tracker-call exception while syncing one task is caught and
recorded: its message lands in the result's `errors` and every other task
is still processed, so `created + updated + unchanged + |errors|` always
equals the number of parsed tasks, whatever the exception oracle does. -/
theorem sync_partial_failure (tasks : List ParsedTask) (existing : List GHIssue)
    (oracle : Nat → Option String) (nn : Nat) :
    ((sync_todos_to_issues tasks existing oracle nn).1.created +
      (sync_todos_to_issues tasks existing oracle nn).1.updated +
      (sync_todos_to_issues tasks existing oracle nn).1.unchanged +
      (sync_todos_to_issues tasks existing oracle nn).1.errors.length = tasks.length) ∧
    (∀ i t e, tasks[i]? = some t → oracle i = some e →
      (match map_lookup (build_task_map existing) t.task_id with
       | some ex => ex.title ≠ t.title
       | none => True) →
      sync_error_msg t.title e ∈ (sync_todos_to_issues tasks existing oracle nn).1.errors) := by
  cases tasks with
  | nil =>
    refine ⟨rfl, ?_⟩
    intro i t e hget
    simp at hget
  | cons u ts =>
    have hdef : sync_todos_to_issues (u :: ts) existing oracle nn =
        (let st := sync_loop (build_task_map existing) oracle 0 (u :: ts)
          { issues := existing, next_number := nn }
         (st.result, st.issues)) := by
      simp [sync_todos_to_issues]
    constructor
    · rw [hdef]
      have h := sync_loop_sum (build_task_map existing) oracle (u :: ts) 0
        { issues := existing, next_number := nn }
      simpa using h
    · intro i t e hget hor hcall
      rw [hdef]
      exact sync_loop_error_mem (build_task_map existing) oracle (u :: ts) 0 _ i t e
        hget (by simpa using hor) hcall

/-- Witness for C7: one parsed task whose creation call raises lands its
message in `errors`, and the counters plus errors still account for the
single task. -/
theorem sync_partial_failure_witness :
    sync_error_msg "Alpha" "boom" ∈
      (sync_todos_to_issues (parse_todo_file zeroHash "TODO.md" "- [ ] Alpha") []
        (fun i => if i = 0 then some "boom" else none) 1).1.errors ∧
    (sync_todos_to_issues (parse_todo_file zeroHash "TODO.md" "- [ ] Alpha") []
        (fun i => if i = 0 then some "boom" else none) 1).1.created +
      (sync_todos_to_issues (parse_todo_file zeroHash "TODO.md" "- [ ] Alpha") []
        (fun i => if i = 0 then some "boom" else none) 1).1.updated +
      (sync_todos_to_issues (parse_todo_file zeroHash "TODO.md" "- [ ] Alpha") []
        (fun i => if i = 0 then some "boom" else none) 1).1.unchanged +
      (sync_todos_to_issues (parse_todo_file zeroHash "TODO.md" "- [ ] Alpha") []
        (fun i => if i = 0 then some "boom" else none) 1).1.errors.length =
      (parse_todo_file zeroHash "TODO.md" "- [ ] Alpha").length := by
  constructor
  · exact (sync_partial_failure (parse_todo_file zeroHash "TODO.md" "- [ ] Alpha") []
      (fun i => if i = 0 then some "boom" else none) 1).2 0
      { title := "Alpha", body := "", task_id := "task-00000000",
        source_file := "TODO.md", priority := "medium" } "boom" (by decide) rfl trivial
  · exact (sync_partial_failure (parse_todo_file zeroHash "TODO.md" "- [ ] Alpha") []
      (fun i => if i = 0 then some "boom" else none) 1).1

/-! ## C3: staleness detection and reclaim -/

theorem reclaim_step_issues (t : Nat) (st : GHState) (ci : ClaimInfo) :
    (reclaim_step t st ci).issues = st.issues.map (fun j =>
      if j.number = ci.issue_number then
        { j with
          assignee := none,
          labels :=
            ((j.labels.filter (fun l => l != "status:claimed")).filter
              (fun l => l != "status:in-progress")) ++
            (["status:available"].filter (fun l =>
              !((j.labels.filter (fun l => l != "status:claimed")).filter
                (fun l => l != "status:in-progress")).contains l)) }
      else j) := by
  simp only [reclaim_step, GHState.addComment, GHState.addLabels, GHState.removeLabel,
    GHState.setAssignee, List.map_map]
  refine List.map_congr_left ?_
  intro j _
  by_cases hj : j.number = ci.issue_number <;> simp [Function.comp, hj]

theorem reclaim_step_commentsOf (t : Nat) (st : GHState) (cj : ClaimInfo) (m : Nat) :
    (reclaim_step t st cj).commentsOf m =
      st.commentsOf m ++ (if cj.issue_number = m then [stale_comment t cj] else []) := by
  by_cases hm : cj.issue_number = m <;>
    simp [reclaim_step, GHState.addComment, GHState.addLabels, GHState.removeLabel,
      GHState.setAssignee, GHState.commentsOf, List.filter_append, hm]

theorem reclaim_labels_ok (ls : List String) :
    "status:available" ∈
      ((ls.filter (fun l => l != "status:claimed")).filter
        (fun l => l != "status:in-progress")) ++
      (["status:available"].filter (fun l =>
        !((ls.filter (fun l => l != "status:claimed")).filter
          (fun l => l != "status:in-progress")).contains l)) ∧
    "status:claimed" ∉
      ((ls.filter (fun l => l != "status:claimed")).filter
        (fun l => l != "status:in-progress")) ++
      (["status:available"].filter (fun l =>
        !((ls.filter (fun l => l != "status:claimed")).filter
          (fun l => l != "status:in-progress")).contains l)) ∧
    "status:in-progress" ∉
      ((ls.filter (fun l => l != "status:claimed")).filter
        (fun l => l != "status:in-progress")) ++
      (["status:available"].filter (fun l =>
        !((ls.filter (fun l => l != "status:claimed")).filter
          (fun l => l != "status:in-progress")).contains l)) := by
  set A := (ls.filter (fun l => l != "status:claimed")).filter
    (fun l => l != "status:in-progress") with hA
  refine ⟨?_, ?_, ?_⟩
  · by_cases hc : A.contains "status:available"
    · exact List.mem_append_left _ (by simpa using hc)
    · refine List.mem_append_right _ ?_
      have hc2 : "status:available" ∉ A := by simpa using hc
      simp [hc2]
  · intro hmem
    rcases List.mem_append.1 hmem with hmem | hmem
    · have := (List.mem_filter.1 (List.mem_filter.1 hmem).1).2
      simp at this
    · have := (List.mem_filter.1 hmem).1
      simp at this
  · intro hmem
    rcases List.mem_append.1 hmem with hmem | hmem
    · have := (List.mem_filter.1 hmem).2
      simp at this
    · have := (List.mem_filter.1 hmem).1
      simp at this

theorem reclaimedState_establish (t : Nat) (st : GHState) (ci : ClaimInfo) :
    reclaimedState t ci (reclaim_step t st ci) := by
  constructor
  · intro i hi hnum
    rw [reclaim_step_issues] at hi
    obtain ⟨j, _, hf⟩ := List.mem_map.1 hi
    by_cases hjn : j.number = ci.issue_number
    · rw [if_pos hjn] at hf
      rw [← hf]
      exact ⟨rfl, (reclaim_labels_ok j.labels).1, (reclaim_labels_ok j.labels).2.1,
        (reclaim_labels_ok j.labels).2.2⟩
    · rw [if_neg hjn] at hf
      rw [← hf] at hnum
      exact absurd hnum hjn
  · rw [reclaim_step_commentsOf, if_pos rfl]
    simp

theorem reclaimedState_preserve (t : Nat) (ci cj : ClaimInfo) (st : GHState)
    (h : reclaimedState t ci st) : reclaimedState t ci (reclaim_step t st cj) := by
  obtain ⟨hiss, hcom⟩ := h
  constructor
  · intro i hi hnum
    rw [reclaim_step_issues] at hi
    obtain ⟨j, hj, hf⟩ := List.mem_map.1 hi
    by_cases hjn : j.number = cj.issue_number
    · rw [if_pos hjn] at hf
      have hjnum : j.number = ci.issue_number := by rw [← hf] at hnum; exact hnum
      obtain ⟨_, havail, _, _⟩ := hiss j hj hjnum
      rw [← hf]
      refine ⟨rfl, ?_, (reclaim_labels_ok j.labels).2.1, (reclaim_labels_ok j.labels).2.2⟩
      refine List.mem_append_left _ ?_
      exact List.mem_filter.2 ⟨List.mem_filter.2 ⟨havail, by simp⟩, by simp⟩
    · rw [if_neg hjn] at hf
      rw [← hf]
      rw [← hf] at hnum
      exact hiss j hj hnum
  · rw [reclaim_step_commentsOf]
    exact List.mem_append_left _ hcom

theorem reclaim_fold_preserve (t : Nat) (ci : ClaimInfo) :
    ∀ (l : List ClaimInfo) (acc : Nat) (st : GHState), reclaimedState t ci st →
      reclaimedState t ci
        ((l.foldl (fun a c => (a.1 + 1, reclaim_step t a.2 c)) (acc, st)).2) := by
  intro l
  induction l with
  | nil => intro acc st h; exact h
  | cons c l ih =>
    intro acc st h
    rw [List.foldl_cons]
    exact ih (acc + 1) (reclaim_step t st c) (reclaimedState_preserve t ci c st h)

theorem reclaim_fold_count (t : Nat) :
    ∀ (l : List ClaimInfo) (acc : Nat) (st : GHState),
      (l.foldl (fun a c => (a.1 + 1, reclaim_step t a.2 c)) (acc, st)).1 =
        acc + l.length := by
  intro l
  induction l with
  | nil => intro acc st; simp
  | cons c l ih =>
    intro acc st
    rw [List.foldl_cons, ih]
    simp
    omega

theorem reclaim_fold_mem (t : Nat) :
    ∀ (l : List ClaimInfo) (acc : Nat) (st : GHState), ∀ ci ∈ l,
      reclaimedState t ci
        ((l.foldl (fun a c => (a.1 + 1, reclaim_step t a.2 c)) (acc, st)).2) := by
  intro l
  induction l with
  | nil => intro acc st ci hci; simp at hci
  | cons c l ih =>
    intro acc st ci hci
    rw [List.foldl_cons]
    rcases List.mem_cons.1 hci with rfl | hci
    · exact reclaim_fold_preserve t ci l _ _ (reclaimedState_establish t st ci)
    · exact ih _ _ ci hci

/-- C3: a lease appears in `check_stale_claims` exactly when some
claimed/in-progress issue recovers it and its parsed heartbeat is older
than `claim_timeout`; `reclaim_stale_tasks` then returns the count of
stale leases, and in the resulting tracker state each stale lease's item
is unassigned, back on `status:available` and off the claimed/in-progress
labels, with the audit comment naming the agent and its heartbeat. -/
theorem stale_claims_spec (st : GHState) (parseIso : String → Option Int) (now : Int)
    (claim_timeout : Nat) :
    (∀ ci, ci ∈ check_stale_claims st parseIso now claim_timeout ↔
      ∃ issue ∈ active_listing st,
        get_claim_info (st.commentsOf issue.number) issue.number = some ci ∧
        ∃ hb, parse_heartbeat parseIso ci.last_heartbeat = some hb ∧
          now - hb > (claim_timeout : Int)) ∧
    ((reclaim_stale_tasks st parseIso now claim_timeout).1 =
      (check_stale_claims st parseIso now claim_timeout).length) ∧
    (∀ ci ∈ check_stale_claims st parseIso now claim_timeout,
      reclaimedState claim_timeout ci
        (reclaim_stale_tasks st parseIso now claim_timeout).2) := by
  refine ⟨?_, ?_, ?_⟩
  · intro ci
    rw [check_stale_claims, List.mem_filterMap]
    constructor
    · rintro ⟨a, ha, hfa⟩
      cases hg : get_claim_info (st.commentsOf a.number) a.number with
      | none => simp only [hg] at hfa; cases hfa
      | some ci' =>
        simp only [hg] at hfa
        cases hp : parse_heartbeat parseIso ci'.last_heartbeat with
        | none => simp only [hp] at hfa; cases hfa
        | some hb =>
          simp only [hp] at hfa
          by_cases hcmp : now - hb > (claim_timeout : Int)
          · rw [if_pos hcmp] at hfa
            obtain rfl : ci' = ci := by simpa using hfa
            exact ⟨a, ha, hg, hb, hp, hcmp⟩
          · rw [if_neg hcmp] at hfa
            simp at hfa
    · rintro ⟨a, ha, hg, hb, hp, hcmp⟩
      refine ⟨a, ha, ?_⟩
      simp only [hg, hp]
      rw [if_pos hcmp]
  · simp only [reclaim_stale_tasks]
    rw [reclaim_fold_count claim_timeout _ 0 st]
    omega
  · intro ci hci
    simp only [reclaim_stale_tasks]
    exact reclaim_fold_mem claim_timeout _ 0 st ci hci

set_option maxRecDepth 100000

/-- Witness for C3 at concrete inputs: the sample lease (heartbeat age
2000 s, timeout 1800 s) is listed stale, and reclaiming returns count 1
with the item released. -/
theorem stale_claims_spec_witness :
    sampleClaim ∈ check_stale_claims staleState sampleParseIso 2000 1800 ∧
    (reclaim_stale_tasks staleState sampleParseIso 2000 1800).1 = 1 ∧
    reclaimedState 1800 sampleClaim
      (reclaim_stale_tasks staleState sampleParseIso 2000 1800).2 := by
  have h := stale_claims_spec staleState sampleParseIso 2000 1800
  have hmem : sampleClaim ∈ check_stale_claims staleState sampleParseIso 2000 1800 := by
    refine (h.1 sampleClaim).2
      ⟨{ number := 7, title := "T", body := "", assignee := some "alice",
         labels := ["orchestra-task", "status:claimed"] }, ?_, ?_, 0, ?_, ?_⟩
    · decide
    · decide
    · decide
    · decide
  refine ⟨hmem, ?_, h.2.2 sampleClaim hmem⟩
  rw [h.2.1]
  decide

/-! ## C8: lease recovery from the comment stream -/

theorem find?_append_of_none {α : Type} (p : α → Bool) (l1 l2 : List α)
    (h : l1.find? p = none) : (l1 ++ l2).find? p = l2.find? p := by
  induction l1 with
  | nil => rfl
  | cons a l ih =>
    rw [List.cons_append]
    cases hpa : p a with
    | true => rw [List.find?_cons_of_pos _ hpa] at h; exact absurd h (by simp)
    | false =>
      rw [List.find?_cons_of_neg _ (by simp [hpa])] at h
      rw [List.find?_cons_of_neg _ (by simp [hpa])]
      exact ih h

/-- C8: lease recovery returns the parse of the most recent
marker-bearing comment — `none` when no comment carries the marker (and
the parse of an unparseable latest marker comment is `none` too, the
"skip, do not treat as stale" outcome); parsing itself succeeds exactly
when the agent-id, username, claimed-at and heartbeat searches all match
(branch optional); and `get_all_active_claims` keeps exactly the issues
whose recovery produced a lease. -/
theorem lease_recovery_spec (comments : List String) (n : Nat) (body : String)
    (st : GHState) :
    ((∀ c ∈ comments, strContains c CLAIM_COMMENT_MARKER = false) →
      get_claim_info comments n = none) ∧
    (∀ pre c post, comments = pre ++ c :: post →
      strContains c CLAIM_COMMENT_MARKER = true →
      (∀ c' ∈ post, strContains c' CLAIM_COMMENT_MARKER = false) →
      get_claim_info comments n = parse_claim_comment c n) ∧
    ((parse_claim_comment body n).isSome ↔
      ((searchPat "Agent ID | `".toList isTickChar true body.toList).isSome ∧
       (searchPat "GitHub User | @".toList isSpaceChar false body.toList).isSome ∧
       (searchPat "Claimed At | ".toList isCellStop false body.toList).isSome ∧
       (searchPat "Heartbeat | ".toList isCellStop false body.toList).isSome)) ∧
    (∀ ci, ci ∈ get_all_active_claims st ↔
      ∃ i ∈ active_listing st,
        get_claim_info (st.commentsOf i.number) i.number = some ci) := by
  refine ⟨?_, ?_, ?_, ?_⟩
  · intro hnone
    rw [get_claim_info]
    have : comments.reverse.find? (fun b => strContains b CLAIM_COMMENT_MARKER) = none := by
      rw [List.find?_eq_none]
      intro x hx
      simp [hnone x (List.mem_reverse.1 hx)]
    rw [this]
  · intro pre c post hsplit hc hpost
    rw [get_claim_info, hsplit]
    have hrev : (pre ++ c :: post).reverse = post.reverse ++ c :: pre.reverse := by
      simp
    rw [hrev]
    have hnone : post.reverse.find? (fun b => strContains b CLAIM_COMMENT_MARKER) = none := by
      rw [List.find?_eq_none]
      intro x hx
      simp [hpost x (List.mem_reverse.1 hx)]
    rw [find?_append_of_none _ _ _ hnone, List.find?_cons_of_pos _ (by simp [hc])]
  · cases h1 : searchPat "Agent ID | `".toList isTickChar true body.toList <;>
      cases h2 : searchPat "GitHub User | @".toList isSpaceChar false body.toList <;>
      cases h3 : searchPat "Claimed At | ".toList isCellStop false body.toList <;>
      cases h4 : searchPat "Heartbeat | ".toList isCellStop false body.toList <;>
      (simp only [parse_claim_comment]; rw [h1, h2, h3, h4]; simp)
  · intro ci
    rw [get_all_active_claims, List.mem_filterMap]

/-- Witness for C8: a markerless comment stream recovers nothing, and
with the sample lease comment last among markered comments, recovery
parses exactly it. -/
theorem lease_recovery_spec_witness :
    get_claim_info ["x"] 7 = none ∧
    get_claim_info ["x", format_claim_comment 1800 sampleClaim, "y"] 7 =
      parse_claim_comment (format_claim_comment 1800 sampleClaim) 7 := by
  constructor
  · exact (lease_recovery_spec ["x"] 7 "" {}).1 (by decide)
  · exact (lease_recovery_spec ["x", format_claim_comment 1800 sampleClaim, "y"] 7 "" {}).2.1
      ["x"] (format_claim_comment 1800 sampleClaim) ["y"] rfl (by decide) (by decide)

/-! ## C2: idempotence of re-running the synchronizer -/

theorem map_lookup_build_aux (tid : String) :
    ∀ (issues : List GHIssue) (m : List (String × GHIssue)),
      (map_lookup (issues.foldl (fun m i =>
        match extract_task_id_from_body i.body with
        | some t => (t, i) :: m
        | none => m) m) tid).isSome ↔
      ((map_lookup m tid).isSome ∨
        ∃ i ∈ issues, extract_task_id_from_body i.body = some tid) := by
  intro issues
  induction issues with
  | nil => intro m; simp
  | cons i is ih =>
    intro m
    rw [List.foldl_cons]
    cases hext : extract_task_id_from_body i.body with
    | none =>
      simp only [hext]
      rw [ih]
      simp [hext]
    | some t =>
      simp only [hext]
      rw [ih]
      have hcons : (map_lookup ((t, i) :: m) tid).isSome ↔
          (t = tid ∨ (map_lookup m tid).isSome) := by
        by_cases ht : t = tid
        · simp [map_lookup, List.find?, ht]
        · have hbeq : (t == tid) = false := by simpa using ht
          simp [map_lookup, List.find?, hbeq, ht]
      rw [hcons]
      constructor
      · rintro ((rfl | hm) | ⟨j, hj, hjext⟩)
        · exact .inr ⟨i, by simp, hext⟩
        · exact .inl hm
        · exact .inr ⟨j, by simp [hj], hjext⟩
      · rintro (hm | ⟨j, hj, hjext⟩)
        · exact .inl (.inr hm)
        · rcases List.mem_cons.1 hj with rfl | hj
          · rw [hext] at hjext
            exact .inl (.inl (by simpa using hjext))
          · exact .inr ⟨j, hj, hjext⟩

theorem map_lookup_build (issues : List GHIssue) (tid : String) :
    (map_lookup (build_task_map issues) tid).isSome ↔
      ∃ i ∈ issues, extract_task_id_from_body i.body = some tid := by
  have h := map_lookup_build_aux tid issues []
  simpa [build_task_map, map_lookup] using h

theorem sync_step_body_pres (tmap : List (String × GHIssue))
    (oracle : Nat → Option String) (idx : Nat) (t : ParsedTask) (st : SyncState)
    (tid : String)
    (h : ∃ i ∈ st.issues, extract_task_id_from_body i.body = some tid) :
    ∃ i ∈ (sync_step tmap oracle idx t st).issues,
      extract_task_id_from_body i.body = some tid := by
  obtain ⟨i, hi, hext⟩ := h
  cases hlk : map_lookup tmap t.task_id with
  | none =>
    cases hor : oracle idx with
    | none => exact ⟨i, by simp [sync_step, hlk, hor, hi], hext⟩
    | some e => exact ⟨i, by simp [sync_step, hlk, hor, hi], hext⟩
  | some ex =>
    by_cases ht : ex.title ≠ t.title
    · cases hor : oracle idx with
      | none =>
        by_cases hnum : i.number = ex.number
        · refine ⟨{ i with title := t.title }, ?_, hext⟩
          simp only [sync_step, hlk, if_pos ht, hor]
          exact List.mem_map.2 ⟨i, hi, by simp [hnum]⟩
        · refine ⟨i, ?_, hext⟩
          simp only [sync_step, hlk, if_pos ht, hor]
          exact List.mem_map.2 ⟨i, hi, by simp [hnum]⟩
      | some e => exact ⟨i, by simp [sync_step, hlk, if_pos ht, hor, hi], hext⟩
    · exact ⟨i, by simp [sync_step, hlk, if_neg ht, hi], hext⟩

theorem sync_loop_body_pres (tmap : List (String × GHIssue))
    (oracle : Nat → Option String) (tid : String) :
    ∀ (ts : List ParsedTask) (idx : Nat) (st : SyncState),
      (∃ i ∈ st.issues, extract_task_id_from_body i.body = some tid) →
      ∃ i ∈ (sync_loop tmap oracle idx ts st).issues,
        extract_task_id_from_body i.body = some tid := by
  intro ts
  induction ts with
  | nil => intro idx st h; simpa [sync_loop] using h
  | cons t ts ih =>
    intro idx st h
    rw [sync_loop]
    exact ih _ _ (sync_step_body_pres tmap oracle idx t st tid h)

theorem sync_loop_covers (tmap : List (String × GHIssue)) :
    ∀ (ts : List ParsedTask) (idx : Nat) (st : SyncState),
      (∀ t ∈ ts, extract_task_id_from_body
        (format_issue_body t.body t.task_id t.source_file) = some t.task_id) →
      (∀ t ∈ ts, (map_lookup tmap t.task_id).isSome →
        ∃ i ∈ st.issues, extract_task_id_from_body i.body = some t.task_id) →
      ∀ t ∈ ts, ∃ i ∈ (sync_loop tmap noRaise idx ts st).issues,
        extract_task_id_from_body i.body = some t.task_id := by
  intro ts
  induction ts with
  | nil => intro idx st _ _ t ht; simp at ht
  | cons u ts ih =>
    intro idx st hext hmap t ht
    rw [sync_loop]
    rcases List.mem_cons.1 ht with rfl | ht
    · cases hlk : map_lookup tmap t.task_id with
      | some ex =>
        refine sync_loop_body_pres tmap noRaise t.task_id ts _ _ ?_
        exact sync_step_body_pres tmap noRaise idx t st t.task_id
          (hmap t (by simp) (by simp [hlk]))
      | none =>
        refine sync_loop_body_pres tmap noRaise t.task_id ts _ _ ?_
        refine ⟨new_issue_for t st.next_number, ?_, ?_⟩
        · simp [sync_step, hlk, noRaise]
        · exact hext t (by simp)
    · refine ih (idx + 1) _ (fun v hv => hext v (by simp [hv]))
        (fun v hv hsome => ?_) t ht
      exact sync_step_body_pres tmap noRaise idx u st v.task_id
        (hmap v (by simp [hv]) hsome)

theorem sync_loop_created_zero (tmap : List (String × GHIssue))
    (oracle : Nat → Option String) :
    ∀ (ts : List ParsedTask) (idx : Nat) (st : SyncState),
      (∀ t ∈ ts, (map_lookup tmap t.task_id).isSome) →
      (sync_loop tmap oracle idx ts st).result.created = st.result.created := by
  intro ts
  induction ts with
  | nil => intro idx st _; simp [sync_loop]
  | cons t ts ih =>
    intro idx st hmap
    rw [sync_loop, ih _ _ (fun v hv => hmap v (by simp [hv]))]
    cases hlk : map_lookup tmap t.task_id with
    | none => exact absurd (hmap t (by simp)) (by simp [hlk])
    | some ex =>
      by_cases ht : ex.title ≠ t.title
      · cases hor : oracle idx with
        | none => simp [sync_step, hlk, if_pos ht, hor]
        | some e => simp [sync_step, hlk, if_pos ht, hor]
      · simp [sync_step, hlk, if_neg ht]

theorem sync_twice_created (tasks : List ParsedTask) (existing : List GHIssue)
    (n1 n2 : Nat)
    (hext : ∀ t ∈ tasks, extract_task_id_from_body
      (format_issue_body t.body t.task_id t.source_file) = some t.task_id) :
    (sync_todos_to_issues tasks
      (sync_todos_to_issues tasks existing noRaise n1).2 noRaise n2).1.created = 0 := by
  cases tasks with
  | nil => rfl
  | cons u ts =>
    have hrun1 : (sync_todos_to_issues (u :: ts) existing noRaise n1).2 =
        (sync_loop (build_task_map existing) noRaise 0 (u :: ts)
          { issues := existing, next_number := n1 }).issues := rfl
    have hcov : ∀ t ∈ (u :: ts),
        ∃ i ∈ (sync_loop (build_task_map existing) noRaise 0 (u :: ts)
          { issues := existing, next_number := n1 }).issues,
          extract_task_id_from_body i.body = some t.task_id := by
      refine sync_loop_covers (build_task_map existing) (u :: ts) 0 _ hext ?_
      intro t _ hsome
      exact (map_lookup_build existing t.task_id).1 hsome
    have hmap2 : ∀ t ∈ (u :: ts),
        (map_lookup (build_task_map (sync_todos_to_issues (u :: ts) existing
          noRaise n1).2) t.task_id).isSome := by
      intro t ht
      rw [hrun1]
      exact (map_lookup_build _ t.task_id).2 (hcov t ht)
    have : (sync_todos_to_issues (u :: ts)
        (sync_todos_to_issues (u :: ts) existing noRaise n1).2 noRaise n2).1 =
        (sync_loop (build_task_map ((sync_todos_to_issues (u :: ts) existing
          noRaise n1).2)) noRaise 0 (u :: ts)
          { issues := (sync_todos_to_issues (u :: ts) existing noRaise n1).2,
            next_number := n2 }).result := rfl
    rw [this, sync_loop_created_zero _ _ _ _ _ hmap2]

/-- C2 (amended): re-running `sync_todos_to_issues` on the unchanged
backlog, against the remote items the first run produced, creates zero new
items — provided every parsed task's formatted issue body yields the
task's own content id when the id is re-extracted (true whenever no
description or source path spoofs an earlier `**Task ID**` metadata
pattern).  The content id is `task-` plus the deterministic title hash. -/
theorem sync_idempotent_amended (hash8 : String → String) (src content : String)
    (existing : List GHIssue) (n1 n2 : Nat)
    (hext : ∀ t ∈ parse_todo_file hash8 src content,
      extract_task_id_from_body (format_issue_body t.body t.task_id t.source_file) =
        some t.task_id) :
    (sync_todos_to_issues (parse_todo_file hash8 src content)
      (sync_todos_to_issues (parse_todo_file hash8 src content) existing noRaise n1).2
      noRaise n2).1.created = 0 :=
  sync_twice_created (parse_todo_file hash8 src content) existing n1 n2 hext

/-- Witness for C2 at a concrete backlog: a one-task file synced twice
from an empty tracker creates nothing the second time. -/
theorem sync_idempotent_amended_witness :
    (sync_todos_to_issues (parse_todo_file zeroHash "TODO.md" "- [ ] Alpha")
      (sync_todos_to_issues (parse_todo_file zeroHash "TODO.md" "- [ ] Alpha") []
        noRaise 1).2 noRaise 2).1.created = 0 :=
  sync_idempotent_amended zeroHash "TODO.md" "- [ ] Alpha" [] 1 2 (by decide)

/-- Counterexample to C2 as stated: a backlog whose task description
contains its own `**Task ID**` metadata line.  The first run embeds the
task's real id below the spoofed one, but re-extraction finds the spoofed
one first, so the second run does not recognize the created item and
creates again: `created = 1`, not `0`. -/
theorem sync_idempotent_ce :
    (sync_todos_to_issues (parse_todo_file zeroHash "TODO.md" spoofContent)
      (sync_todos_to_issues (parse_todo_file zeroHash "TODO.md" spoofContent) []
        noRaise 1).2 noRaise 2).1.created = 1 := by
  decide

/-! ## C10: the format / parse round trip of the lease comment

The machinery below locates each field pattern's leftmost match inside the
formatted comment: `searchPat_skip`-style lemmas walk the search past the
segments before the pattern's own row (concrete segments by a decidable
check, variable field segments by a character-class argument), and
`searchPat_head` computes the capture at the match. -/

theorem lpre_append_self (x y : List Char) : lpre x (x ++ y) = true := by
  induction x with
  | nil => rfl
  | cons a xs ih => simp [lpre, ih]

theorem lpre_eq_take (x l : List Char) (h : lpre x l = true) : x = l.take x.length := by
  induction x generalizing l with
  | nil => rfl
  | cons a xs ih =>
    cases l with
    | nil => simp [lpre] at h
    | cons b bs =>
      simp only [lpre, Bool.and_eq_true, decide_eq_true_eq] at h
      obtain ⟨rfl, h2⟩ := h
      simpa [List.take] using ih bs h2

theorem lpre_long (x a b : List Char) (h : x.length ≤ a.length) :
    lpre x (a ++ b) = lpre x a := by
  induction x generalizing a with
  | nil => simp [lpre]
  | cons c xs ih =>
    cases a with
    | nil => simp at h
    | cons d as =>
      simp only [List.cons_append, lpre, List.append_eq]
      rw [ih as (by simpa using h)]

theorem lpre_trunc (x a b : List Char) (h : lpre x (a ++ b) = true) :
    lpre (x.take a.length) a = true := by
  induction a generalizing x with
  | nil => rfl
  | cons d as ih =>
    cases x with
    | nil => simp [lpre]
    | cons c xs =>
      simp only [List.cons_append, lpre, Bool.and_eq_true, decide_eq_true_eq] at h
      obtain ⟨h1, h2⟩ := h
      simpa [List.take, lpre, h1] using ih xs h2

theorem lpre_split (x s r : List Char) (h : lpre x (s ++ r) = true)
    (hlen : s.length ≤ x.length) :
    x.take s.length = s ∧ lpre (x.drop s.length) r = true := by
  induction s generalizing x with
  | nil => exact ⟨rfl, by simpa using h⟩
  | cons d as ih =>
    cases x with
    | nil => simp at hlen
    | cons c xs =>
      simp only [List.cons_append, lpre, Bool.and_eq_true, decide_eq_true_eq] at h
      obtain ⟨h1, h2⟩ := h
      obtain ⟨ht, hd⟩ := ih xs h2 (by simpa using hlen)
      exact ⟨by simp [List.take, h1, ht], by simpa [List.drop] using hd⟩

theorem takeRun_append (bad : Char → Bool) (val : List Char) (c0 : Char)
    (rest : List Char) (hval : ∀ c ∈ val, bad c = false) (hc0 : bad c0 = true) :
    takeRun bad (val ++ c0 :: rest) = (val, c0 :: rest) := by
  induction val with
  | nil => simp [takeRun, hc0]
  | cons c cs ih =>
    have hc : bad c = false := hval c (by simp)
    simp [takeRun, hc, ih (fun d hd => hval d (by simp [hd]))]

theorem searchPat_head (lit : List Char) (bad : Char → Bool) (tick : Bool)
    (val : List Char) (c0 : Char) (rest : List Char)
    (hval : ∀ c ∈ val, bad c = false) (hne : val ≠ [])
    (hc0 : bad c0 = true) (htick : tick = true → c0 = backquote) :
    searchPat lit bad tick (lit ++ (val ++ c0 :: rest)) = some val := by
  obtain ⟨d, ds, hds⟩ : ∃ d ds, lit ++ (val ++ c0 :: rest) = d :: ds := by
    cases hl : lit ++ (val ++ c0 :: rest) with
    | nil => simp at hl
    | cons d ds => exact ⟨d, ds, rfl⟩
  have hlp : lpre lit (d :: ds) = true := by
    rw [← hds]; exact lpre_append_self lit _
  have hdrop : (d :: ds).drop lit.length = val ++ c0 :: rest := by
    rw [← hds]; exact List.drop_left lit _
  have hrun : takeRun bad ((d :: ds).drop lit.length) = (val, c0 :: rest) := by
    rw [hdrop]; exact takeRun_append bad val c0 rest hval hc0
  rw [hds, searchPat, if_pos hlp, hrun]
  have hcond : (!(val.isEmpty) && (!tick || (c0 :: rest).head? == some backquote)) = true := by
    have h1 : val.isEmpty = false := by
      cases val with
      | nil => exact absurd rfl hne
      | cons x xs => rfl
    cases tick with
    | false => simp [h1]
    | true => simp [h1, htick rfl]
  rw [if_pos hcond]

theorem searchPat_skip (lit : List Char) (bad : Char → Bool) (tick : Bool) :
    ∀ (p t : List Char), (∀ i, i < p.length → lpre lit (p.drop i ++ t) = false) →
      searchPat lit bad tick (p ++ t) = searchPat lit bad tick t := by
  intro p
  induction p with
  | nil => intro t _; rfl
  | cons c cs ih =>
    intro t h
    have h0 : lpre lit (c :: (cs ++ t)) = false := by
      simpa using h 0 (by simp)
    rw [List.cons_append, searchPat, if_neg (by simp [h0])]
    exact ih t (fun i hi => by simpa using h (i + 1) (by simpa using Nat.succ_lt_succ hi))

theorem skip_concrete_self (lit : List Char) (bad : Char → Bool) (tick : Bool)
    (p t : List Char)
    (h : ∀ i, i < p.length → lpre (lit.take (p.length - i)) (p.drop i) = false) :
    searchPat lit bad tick (p ++ t) = searchPat lit bad tick t := by
  apply searchPat_skip
  intro i hi
  cases hb : lpre lit (p.drop i ++ t) with
  | false => rfl
  | true =>
    have htr := lpre_trunc lit (p.drop i) t hb
    rw [List.length_drop] at htr
    rw [h i hi] at htr
    cases htr

theorem skip_var (lit : List Char) (bad : Char → Bool) (tick : Bool) (P : Char → Bool)
    (v f t : List Char)
    (hv : ∀ c ∈ v, P c = true)
    (hlen : lit.length ≤ f.length + 1)
    (hfull : lit.all P = false)
    (hk : ∀ k, k < lit.length → 0 < k →
      ((lit.take k).all P = false ∨ lpre (lit.drop k) f = false)) :
    searchPat lit bad tick (v ++ (f ++ t)) = searchPat lit bad tick (f ++ t) := by
  apply searchPat_skip
  intro i hi
  cases hb : lpre lit (v.drop i ++ (f ++ t)) with
  | false => rfl
  | true =>
    exfalso
    have hslen : (v.drop i).length = v.length - i := List.length_drop ..
    have hsne : 0 < (v.drop i).length := by omega
    by_cases hcase : lit.length ≤ (v.drop i).length
    · have heq := lpre_eq_take lit _ hb
      have htake : ((v.drop i) ++ (f ++ t)).take lit.length = (v.drop i).take lit.length :=
        List.take_append_of_le_length hcase
      rw [htake] at heq
      have hall : lit.all P = true := by
        rw [List.all_eq_true]
        intro c hc
        rw [heq] at hc
        exact hv c (List.drop_subset i v (List.take_subset _ _ hc))
      rw [hall] at hfull
      cases hfull
    · push_neg at hcase
      obtain ⟨htake, hrest⟩ := lpre_split lit (v.drop i) (f ++ t) hb (le_of_lt hcase)
      rcases hk (v.drop i).length hcase hsne with hkp | hkl
      · rw [htake] at hkp
        have : (v.drop i).all P = true := by
          rw [List.all_eq_true]
          intro c hc
          exact hv c (List.drop_subset i v hc)
        rw [this] at hkp
        cases hkp
      · have hlen2 : (lit.drop (v.drop i).length).length ≤ f.length := by
          simp only [List.length_drop]
          omega
        rw [lpre_long _ _ _ hlen2] at hrest
        rw [hkl] at hrest
        cases hrest

theorem mk_toList (s : String) : String.mk s.toList = s := by
  cases s
  rfl

theorem toList_ne_nil (s : String) (h : s ≠ "") : s.toList ≠ [] := by
  intro hnil
  apply h
  have := congrArg String.mk hnil
  rwa [mk_toList] at this

theorem pyStripList_of_nospace (l : List Char) (h : ∀ c ∈ l, isSpaceChar c = false) :
    pyStripList l = l := by
  have h1 : l.dropWhile isSpaceChar = l := by
    cases l with
    | nil => rfl
    | cons c cs => simp [List.dropWhile, h c (by simp)]
  have h2 : l.reverse.dropWhile isSpaceChar = l.reverse := by
    cases hr : l.reverse with
    | nil => rfl
    | cons c cs =>
      have hc : c ∈ l := by rw [← List.mem_reverse, hr]; simp
      simp [List.dropWhile, h c hc]
  simp [pyStripList, h1, h2]

theorem pyStripList_append_space (l : List Char) :
    pyStripList (l ++ [' ']) = pyStripList l := by
  unfold pyStripList
  rw [List.dropWhile_append]
  by_cases he : (l.dropWhile isSpaceChar).isEmpty
  · rw [if_pos he]
    have hl : l.dropWhile isSpaceChar = [] := by simpa [List.isEmpty_iff] using he
    simp [hl, List.dropWhile]
  · rw [if_neg he]
    rw [List.reverse_append]
    simp [List.dropWhile, show isSpaceChar ' ' = true from rfl]

theorem strToList_append (s t : String) : (s ++ t).toList = s.toList ++ t.toList := by
  cases s
  cases t
  rfl

theorem format_toList_chain (timeout : Nat) (ci : ClaimInfo) (b : String)
    (hbr : ci.branch_name = some b) (hbne : b ≠ "") :
    (format_claim_comment timeout ci).toList =
      CLAIM_COMMENT_MARKER.toList ++
      ("\n## Task Claimed\n\n| Field | Value |\n|-------|-------|\n| Agent ID | `".toList ++
      (ci.agent_id.toList ++ ("` |\n| GitHub User | @".toList ++
      (ci.github_username.toList ++ (" |\n| Claimed At | ".toList ++
      (ci.claimed_at.toList ++ (" |\n| Branch | `".toList ++
      (b.toList ++ ("` |\n| Heartbeat | ".toList ++
      (ci.last_heartbeat.toList ++ (" |\n".toList ++
      ((match ci.progress_note with
        | some s => if s = "" then "" else "| Progress | " ++ s ++ " |"
        | none => "").toList ++
      ("\n\n---\n_This claim will expire if no heartbeat for ".toList ++
      ((toString (timeout / 60)).toList ++ " minutes._\n".toList)))))))))))))) := by
  have hfmt : format_claim_comment timeout ci =
      CLAIM_COMMENT_MARKER ++
        "\n## Task Claimed\n\n| Field | Value |\n|-------|-------|\n| Agent ID | `"
      ++ ci.agent_id ++ "` |\n| GitHub User | @" ++ ci.github_username
      ++ " |\n| Claimed At | " ++ ci.claimed_at ++ " |\n| Branch | `" ++ b
      ++ "` |\n| Heartbeat | " ++ ci.last_heartbeat ++ " |\n"
      ++ (match ci.progress_note with
          | some s => if s = "" then "" else "| Progress | " ++ s ++ " |"
          | none => "")
      ++ "\n\n---\n_This claim will expire if no heartbeat for "
      ++ toString (timeout / 60) ++ " minutes._\n" := by
    simp only [format_claim_comment, hbr]
    rw [if_neg hbne]
  rw [hfmt]
  simp only [strToList_append, List.append_assoc]

theorem roundtrip_search_agent (timeout : Nat) (ci : ClaimInfo) (b : String)
    (hbr : ci.branch_name = some b) (hbne : b ≠ "")
    (hane : ci.agent_id ≠ "")
    (ha : ∀ c ∈ ci.agent_id.toList, isSpaceChar c = false ∧ isTickChar c = false) :
    searchPat "Agent ID | `".toList isTickChar true
        (format_claim_comment timeout ci).toList = some ci.agent_id.toList := by
  rw [format_toList_chain timeout ci b hbr hbne]
  rw [skip_concrete_self "Agent ID | `".toList isTickChar true
    CLAIM_COMMENT_MARKER.toList _ (by decide)]
  rw [show ∀ X : List Char,
      "\n## Task Claimed\n\n| Field | Value |\n|-------|-------|\n| Agent ID | `".toList ++ X =
      "\n## Task Claimed\n\n| Field | Value |\n|-------|-------|\n| ".toList ++
        ("Agent ID | `".toList ++ X) from fun X => rfl]
  rw [skip_concrete_self "Agent ID | `".toList isTickChar true
    "\n## Task Claimed\n\n| Field | Value |\n|-------|-------|\n| ".toList _ (by decide)]
  rw [show ∀ X : List Char, "` |\n| GitHub User | @".toList ++ X =
      backquote :: (" |\n| GitHub User | @".toList ++ X) from fun X => rfl]
  exact searchPat_head _ _ _ _ backquote _
    (fun c hc => (ha c hc).2) (toList_ne_nil _ hane) rfl (fun _ => rfl)

theorem roundtrip_search_user (timeout : Nat) (ci : ClaimInfo) (b : String)
    (hbr : ci.branch_name = some b) (hbne : b ≠ "")
    (ha : ∀ c ∈ ci.agent_id.toList, isSpaceChar c = false ∧ isTickChar c = false)
    (hune : ci.github_username ≠ "")
    (hu : ∀ c ∈ ci.github_username.toList, isSpaceChar c = false) :
    searchPat "GitHub User | @".toList isSpaceChar false
        (format_claim_comment timeout ci).toList = some ci.github_username.toList := by
  rw [format_toList_chain timeout ci b hbr hbne]
  rw [skip_concrete_self "GitHub User | @".toList isSpaceChar false
    CLAIM_COMMENT_MARKER.toList _ (by decide)]
  rw [skip_concrete_self "GitHub User | @".toList isSpaceChar false
    "\n## Task Claimed\n\n| Field | Value |\n|-------|-------|\n| Agent ID | `".toList _
    (by decide)]
  rw [skip_var "GitHub User | @".toList isSpaceChar false
    (fun c => !isSpaceChar c && !isTickChar c) ci.agent_id.toList
    "` |\n| GitHub User | @".toList _
    (fun c hc => by simp [(ha c hc).1, (ha c hc).2]) (by decide) (by decide) (by decide)]
  rw [show ∀ X : List Char, "` |\n| GitHub User | @".toList ++ X =
      "` |\n| ".toList ++ ("GitHub User | @".toList ++ X) from fun X => rfl]
  rw [skip_concrete_self "GitHub User | @".toList isSpaceChar false
    "` |\n| ".toList _ (by decide)]
  rw [show ∀ X : List Char, " |\n| Claimed At | ".toList ++ X =
      ' ' :: ("|\n| Claimed At | ".toList ++ X) from fun X => rfl]
  exact searchPat_head _ _ _ _ ' ' _ hu (toList_ne_nil _ hune) rfl (fun h => nomatch h)

theorem roundtrip_search_claimed (timeout : Nat) (ci : ClaimInfo) (b : String)
    (hbr : ci.branch_name = some b) (hbne : b ≠ "")
    (ha : ∀ c ∈ ci.agent_id.toList, isSpaceChar c = false ∧ isTickChar c = false)
    (hu : ∀ c ∈ ci.github_username.toList, isSpaceChar c = false)
    (hcchars : ∀ c ∈ ci.claimed_at.toList, isCellStop c = false) :
    searchPat "Claimed At | ".toList isCellStop false
        (format_claim_comment timeout ci).toList =
      some (ci.claimed_at.toList ++ [' ']) := by
  rw [format_toList_chain timeout ci b hbr hbne]
  rw [skip_concrete_self "Claimed At | ".toList isCellStop false
    CLAIM_COMMENT_MARKER.toList _ (by decide)]
  rw [skip_concrete_self "Claimed At | ".toList isCellStop false
    "\n## Task Claimed\n\n| Field | Value |\n|-------|-------|\n| Agent ID | `".toList _
    (by decide)]
  rw [skip_var "Claimed At | ".toList isCellStop false
    (fun c => !isSpaceChar c && !isTickChar c) ci.agent_id.toList
    "` |\n| GitHub User | @".toList _
    (fun c hc => by simp [(ha c hc).1, (ha c hc).2]) (by decide) (by decide) (by decide)]
  rw [skip_concrete_self "Claimed At | ".toList isCellStop false
    "` |\n| GitHub User | @".toList _ (by decide)]
  rw [skip_var "Claimed At | ".toList isCellStop false
    (fun c => !isSpaceChar c) ci.github_username.toList
    " |\n| Claimed At | ".toList _
    (fun c hc => by simp [hu c hc]) (by decide) (by decide) (by decide)]
  rw [show ∀ X : List Char, " |\n| Claimed At | ".toList ++ X =
      " |\n| ".toList ++ ("Claimed At | ".toList ++ X) from fun X => rfl]
  rw [skip_concrete_self "Claimed At | ".toList isCellStop false
    " |\n| ".toList _ (by decide)]
  rw [show ∀ X : List Char,
      ci.claimed_at.toList ++ (" |\n| Branch | `".toList ++ X) =
      (ci.claimed_at.toList ++ [' ']) ++ ('|' :: ("\n| Branch | `".toList ++ X)) from
    fun X => by rw [List.append_assoc]; rfl]
  refine searchPat_head _ _ _ _ '|' _ ?_ (by simp) rfl (fun h => nomatch h)
  intro c hc
  rcases List.mem_append.1 hc with hc | hc
  · exact hcchars c hc
  · simp at hc
    rw [hc]
    rfl

theorem roundtrip_search_branch (timeout : Nat) (ci : ClaimInfo) (b : String)
    (hbr : ci.branch_name = some b) (hbne : b ≠ "")
    (ha : ∀ c ∈ ci.agent_id.toList, isSpaceChar c = false ∧ isTickChar c = false)
    (hu : ∀ c ∈ ci.github_username.toList, isSpaceChar c = false)
    (hcchars : ∀ c ∈ ci.claimed_at.toList, isCellStop c = false)
    (hbchars : ∀ c ∈ b.toList, isTickChar c = false ∧ isCellStop c = false) :
    searchPat "Branch | `".toList isTickChar true
        (format_claim_comment timeout ci).toList = some b.toList := by
  rw [format_toList_chain timeout ci b hbr hbne]
  rw [skip_concrete_self "Branch | `".toList isTickChar true
    CLAIM_COMMENT_MARKER.toList _ (by decide)]
  rw [skip_concrete_self "Branch | `".toList isTickChar true
    "\n## Task Claimed\n\n| Field | Value |\n|-------|-------|\n| Agent ID | `".toList _
    (by decide)]
  rw [skip_var "Branch | `".toList isTickChar true
    (fun c => !isSpaceChar c && !isTickChar c) ci.agent_id.toList
    "` |\n| GitHub User | @".toList _
    (fun c hc => by simp [(ha c hc).1, (ha c hc).2]) (by decide) (by decide) (by decide)]
  rw [skip_concrete_self "Branch | `".toList isTickChar true
    "` |\n| GitHub User | @".toList _ (by decide)]
  rw [skip_var "Branch | `".toList isTickChar true
    (fun c => !isSpaceChar c) ci.github_username.toList
    " |\n| Claimed At | ".toList _
    (fun c hc => by simp [hu c hc]) (by decide) (by decide) (by decide)]
  rw [skip_concrete_self "Branch | `".toList isTickChar true
    " |\n| Claimed At | ".toList _ (by decide)]
  rw [skip_var "Branch | `".toList isTickChar true
    (fun c => !isCellStop c) ci.claimed_at.toList
    " |\n| Branch | `".toList _
    (fun c hc => by simp [hcchars c hc]) (by decide) (by decide) (by decide)]
  rw [show ∀ X : List Char, " |\n| Branch | `".toList ++ X =
      " |\n| ".toList ++ ("Branch | `".toList ++ X) from fun X => rfl]
  rw [skip_concrete_self "Branch | `".toList isTickChar true
    " |\n| ".toList _ (by decide)]
  rw [show ∀ X : List Char, "` |\n| Heartbeat | ".toList ++ X =
      backquote :: (" |\n| Heartbeat | ".toList ++ X) from fun X => rfl]
  exact searchPat_head _ _ _ _ backquote _
    (fun c hc => (hbchars c hc).1) (toList_ne_nil _ hbne) rfl (fun _ => rfl)

theorem roundtrip_search_heartbeat (timeout : Nat) (ci : ClaimInfo) (b : String)
    (hbr : ci.branch_name = some b) (hbne : b ≠ "")
    (ha : ∀ c ∈ ci.agent_id.toList, isSpaceChar c = false ∧ isTickChar c = false)
    (hu : ∀ c ∈ ci.github_username.toList, isSpaceChar c = false)
    (hcchars : ∀ c ∈ ci.claimed_at.toList, isCellStop c = false)
    (hbchars : ∀ c ∈ b.toList, isTickChar c = false ∧ isCellStop c = false)
    (hhchars : ∀ c ∈ ci.last_heartbeat.toList, isCellStop c = false) :
    searchPat "Heartbeat | ".toList isCellStop false
        (format_claim_comment timeout ci).toList =
      some (ci.last_heartbeat.toList ++ [' ']) := by
  rw [format_toList_chain timeout ci b hbr hbne]
  rw [skip_concrete_self "Heartbeat | ".toList isCellStop false
    CLAIM_COMMENT_MARKER.toList _ (by decide)]
  rw [skip_concrete_self "Heartbeat | ".toList isCellStop false
    "\n## Task Claimed\n\n| Field | Value |\n|-------|-------|\n| Agent ID | `".toList _
    (by decide)]
  rw [skip_var "Heartbeat | ".toList isCellStop false
    (fun c => !isSpaceChar c && !isTickChar c) ci.agent_id.toList
    "` |\n| GitHub User | @".toList _
    (fun c hc => by simp [(ha c hc).1, (ha c hc).2]) (by decide) (by decide) (by decide)]
  rw [skip_concrete_self "Heartbeat | ".toList isCellStop false
    "` |\n| GitHub User | @".toList _ (by decide)]
  rw [skip_var "Heartbeat | ".toList isCellStop false
    (fun c => !isSpaceChar c) ci.github_username.toList
    " |\n| Claimed At | ".toList _
    (fun c hc => by simp [hu c hc]) (by decide) (by decide) (by decide)]
  rw [skip_concrete_self "Heartbeat | ".toList isCellStop false
    " |\n| Claimed At | ".toList _ (by decide)]
  rw [skip_var "Heartbeat | ".toList isCellStop false
    (fun c => !isCellStop c) ci.claimed_at.toList
    " |\n| Branch | `".toList _
    (fun c hc => by simp [hcchars c hc]) (by decide) (by decide) (by decide)]
  rw [skip_concrete_self "Heartbeat | ".toList isCellStop false
    " |\n| Branch | `".toList _ (by decide)]
  rw [skip_var "Heartbeat | ".toList isCellStop false
    (fun c => !isTickChar c && !isCellStop c) b.toList
    "` |\n| Heartbeat | ".toList _
    (fun c hc => by simp [(hbchars c hc).1, (hbchars c hc).2])
    (by decide) (by decide) (by decide)]
  rw [show ∀ X : List Char, "` |\n| Heartbeat | ".toList ++ X =
      "` |\n| ".toList ++ ("Heartbeat | ".toList ++ X) from fun X => rfl]
  rw [skip_concrete_self "Heartbeat | ".toList isCellStop false
    "` |\n| ".toList _ (by decide)]
  rw [show ∀ X : List Char,
      ci.last_heartbeat.toList ++ (" |\n".toList ++ X) =
      (ci.last_heartbeat.toList ++ [' ']) ++ ('|' :: ('\n' :: X)) from
    fun X => by rw [List.append_assoc]; rfl]
  refine searchPat_head _ _ _ _ '|' _ ?_ (by simp) rfl (fun h => nomatch h)
  intro c hc
  rcases List.mem_append.1 hc with hc | hc
  · exact hhchars c hc
  · simp at hc
    rw [hc]
    rfl

/-- C10 (corrected): for a claim record whose branch is present, non-empty,
free of backticks, pipes and newlines and strip-invariant, whose agent id is
non-empty and free of whitespace and backticks, whose GitHub username is
non-empty and free of whitespace, and whose claimed-at and heartbeat
timestamps are free of pipes and newlines and strip-invariant, parsing the
formatted claim comment recovers the record on issue number, agent id,
username, both timestamps and branch, with the progress note not recovered.
(The original claim admits an empty username, on which the `@(\S+)` search
fails and parsing returns none.) -/
theorem format_parse_roundtrip (timeout : Nat) (ci : ClaimInfo) (b : String)
    (hbr : ci.branch_name = some b) (hbne : b ≠ "")
    (hbchars : ∀ c ∈ b.toList, isTickChar c = false ∧ isCellStop c = false)
    (hbstrip : pyStrip b = b)
    (hane : ci.agent_id ≠ "")
    (ha : ∀ c ∈ ci.agent_id.toList, isSpaceChar c = false ∧ isTickChar c = false)
    (hune : ci.github_username ≠ "")
    (hu : ∀ c ∈ ci.github_username.toList, isSpaceChar c = false)
    (hcchars : ∀ c ∈ ci.claimed_at.toList, isCellStop c = false)
    (hcstrip : pyStrip ci.claimed_at = ci.claimed_at)
    (hhchars : ∀ c ∈ ci.last_heartbeat.toList, isCellStop c = false)
    (hhstrip : pyStrip ci.last_heartbeat = ci.last_heartbeat) :
    parse_claim_comment (format_claim_comment timeout ci) ci.issue_number =
      some { issue_number := ci.issue_number
             agent_id := ci.agent_id
             github_username := ci.github_username
             claimed_at := ci.claimed_at
             last_heartbeat := ci.last_heartbeat
             branch_name := some b
             progress_note := none } := by
  have hA := roundtrip_search_agent timeout ci b hbr hbne hane ha
  have hU := roundtrip_search_user timeout ci b hbr hbne ha hune hu
  have hC := roundtrip_search_claimed timeout ci b hbr hbne ha hu hcchars
  have hH := roundtrip_search_heartbeat timeout ci b hbr hbne ha hu hcchars hbchars hhchars
  have hB := roundtrip_search_branch timeout ci b hbr hbne ha hu hcchars hbchars
  have ea : String.mk (pyStripList ci.agent_id.toList) = ci.agent_id := by
    rw [pyStripList_of_nospace _ (fun c hc => (ha c hc).1), mk_toList]
  have eu : String.mk (pyStripList ci.github_username.toList) = ci.github_username := by
    rw [pyStripList_of_nospace _ hu, mk_toList]
  have ec : String.mk (pyStripList (ci.claimed_at.toList ++ [' '])) = ci.claimed_at := by
    rw [pyStripList_append_space]
    exact hcstrip
  have eh : String.mk (pyStripList (ci.last_heartbeat.toList ++ [' '])) =
      ci.last_heartbeat := by
    rw [pyStripList_append_space]
    exact hhstrip
  have eb : String.mk (pyStripList b.toList) = b := hbstrip
  simp only [parse_claim_comment, hA, hU, hC, hH, hB, Option.map_some', ea, eu, ec, eh, eb]

theorem format_parse_roundtrip_witness :
    parse_claim_comment (format_claim_comment 1800 sampleClaim)
        sampleClaim.issue_number =
      some { issue_number := 7, agent_id := "alice_host_20240101_ab12",
             github_username := "alice", claimed_at := "2024-01-01T00:00:00+00:00",
             last_heartbeat := "2024-01-01T00:05:00+00:00",
             branch_name := some "alice/task/7", progress_note := none } :=
  format_parse_roundtrip 1800 sampleClaim "alice/task/7" rfl (by decide) (by decide)
    rfl (by decide) (by decide) (by decide) (by decide) (by decide) rfl (by decide) rfl

/-- The original round-trip claim fails on a lease whose GitHub username is
empty: every hypothesis of the claim holds, yet parsing the formatted
comment returns none rather than the original record. -/
theorem format_parse_roundtrip_ce :
    emptyUserClaim.branch_name = some "alice/task/7" ∧
    "alice/task/7" ≠ "" ∧
    (∀ c ∈ "alice/task/7".toList, isTickChar c = false) ∧
    (∀ c ∈ emptyUserClaim.agent_id.toList, isTickChar c = false) ∧
    (∀ c ∈ emptyUserClaim.github_username.toList, isSpaceChar c = false) ∧
    (∀ c ∈ emptyUserClaim.claimed_at.toList, isCellStop c = false) ∧
    (∀ c ∈ emptyUserClaim.last_heartbeat.toList, isCellStop c = false) ∧
    parse_claim_comment (format_claim_comment 1800 emptyUserClaim)
      emptyUserClaim.issue_number = none := by
  refine ⟨rfl, by decide, by decide, by decide, by decide, by decide, by decide, ?_⟩
  rfl

end Orchestra
